import Mathlib

/-!
Verification development for the aura-proxy request routing and dispatch
engine.  The definitions below are a shallow embedding of the Go sources:

* `internal/proxy/chains/solana/proxy_targets.go` (per-target health state),
* `internal/pkg/util/balancer/balancer.go` (weighted probabilistic selector),
* `internal/proxy/chains/solana/method_router.go` (method-based router),
* `internal/proxy/chains/solana/response_analysis.go` (response classifier),
* `internal/proxy/chains/solana/unified_transport.go` (retry dispatcher),
* `internal/proxy/chains/solana/adapter.go` (WebSocket entry point).

Go machine integers are modelled with `Nat`/`Int` (no overflow is reachable
in the modelled quantities), Go float64 weights with `Rat`, Go maps with
association lists, time with explicit Unix-second parameters, and the
per-selector random number generator with an explicit draw in `[0, 1)`.
-/

namespace AuraProxy

/-- Substring test modelling Go strings.Contains on UTF-8 strings. -/
def goContains (s sub : String) : Bool :=
  decide (sub.data <:+: s.data)

/-! ## Target state (proxy_targets.go) -/

/-- Constants from proxy_targets.go and the solana transport file:
lastResponsesTimeMsArrLen = 10, targetJailTime = 1s,
consecutiveSuccessResponses = 10, limitWindowSeconds = 10. -/
def lastResponsesTimeMsArrLen : Nat := 10

def targetJailTimeSec : Nat := 1

def consecutiveSuccessResponses : Nat := 10

def limitWindowSeconds : Nat := 10

def noFullHistoryPenalty : Nat := 1

/-- Modelled from the spec: the constant transport.FromConfigTargetType lives
in a transport-package file that is absent from src/ (only its use sites are
present).  Only identity comparison with it is ever performed, so the exact
literal is irrelevant to every claim. -/
def FromConfigTargetType : String := "from_config"

/-- Per-method restriction state of a target (struct targetRestriction). -/
structure TargetRestriction where
  lastResponsesTimeMs : List Int
  notAvailable : Bool
  jailExpireTime : Int
  errCounter : Nat
  successCounter : Nat
deriving Repr, DecidableEq

/-- Zero value of targetRestriction, as produced by a Go map read miss. -/
def TargetRestriction.zero : TargetRestriction :=
  { lastResponsesTimeMs := [], notAvailable := false, jailExpireTime := 0
    errCounter := 0, successCounter := 0 }

/-- Method addLastResponsesTimeMs: append and keep the last 10 entries. -/
def TargetRestriction.addLastResponsesTimeMs (t : TargetRestriction) (v : Int) :
    TargetRestriction :=
  let ls := t.lastResponsesTimeMs ++ [v]
  if lastResponsesTimeMsArrLen < ls.length then
    { t with lastResponsesTimeMs := ls.drop (ls.length - lastResponsesTimeMsArrLen) }
  else
    { t with lastResponsesTimeMs := ls }

/-- Method getLastResponsesTimeMs: average of the stored response times
(Go int64 division truncates toward zero). -/
def TargetRestriction.getLastResponsesTimeMs (t : TargetRestriction) : Int :=
  if t.lastResponsesTimeMs.length = 0 then 0
  else t.lastResponsesTimeMs.sum.tdiv (t.lastResponsesTimeMs.length : Int)

/-- State of struct proxyTarget.  The Go map availableMethods is an
association list here (keys are method names). -/
structure ProxyTargetState where
  availableMethods : List (String × TargetRestriction)
  partnerName : String
  targetType : String
  url : String
  reqCounter : Nat
  reqLimit : Nat
  reqWindow : Int
  slotAmount : Int
  isFullHistory : Bool
  isAlive : Bool
deriving Repr, DecidableEq

/-- Go map read availableMethods[rm]: value plus ok flag collapse to an
Option; a miss yields the zero value via `findRestriction`. -/
def lookupRestriction : List (String × TargetRestriction) → String →
    Option TargetRestriction
  | [], _ => none
  | p :: rest, k => if p.fst = k then some p.snd else lookupRestriction rest k

/-- Go map read with the zero value on a miss. -/
def findRestriction (ms : List (String × TargetRestriction)) (k : String) :
    TargetRestriction :=
  (lookupRestriction ms k).getD TargetRestriction.zero

/-- Go map write availableMethods[rm] = v: overwrite the binding if the key
is present, otherwise add it. -/
def setRestriction (ms : List (String × TargetRestriction)) (k : String)
    (v : TargetRestriction) : List (String × TargetRestriction) :=
  match ms with
  | [] => [(k, v)]
  | p :: rest =>
    if p.fst = k then (k, v) :: rest else p :: setRestriction rest k v

/-- URLWithMethods input of newProxyTarget (models.URLWithMethods). -/
structure URLWithMethods where
  url : String
  supportedMethods : List (String × Int)
  slotAmount : Int
  isFullHistory : Bool
deriving Repr, DecidableEq

/-- Constructor newProxyTarget from proxy_targets.go. -/
def newProxyTarget (u : URLWithMethods) (reqLimit : Nat)
    (partnerName targetType : String) : ProxyTargetState :=
  { availableMethods :=
      u.supportedMethods.map (fun sm =>
        (sm.fst, { TargetRestriction.zero with lastResponsesTimeMs := [sm.snd] }))
    partnerName := partnerName
    targetType := targetType
    url := u.url
    reqCounter := 0
    reqLimit := reqLimit
    reqWindow := 0
    slotAmount := u.slotAmount
    isFullHistory := u.isFullHistory
    isAlive := true }

/-- AnalyzeError from the solana package: an error kind together with the
unique set of affected methods (map payload modelled as a list). -/
structure AnalyzeError where
  isMethodNotAvailable : Bool
  payload : List String
deriving Repr, DecidableEq

/-- getCurrentTimeWindow: the window is the Unix time truncated to the
10-second grid; the Unix time `now` is supplied explicitly. -/
def getCurrentTimeWindow (now : Nat) : Int × Int :=
  ((limitWindowSeconds : Int) * ((now : Int) / (limitWindowSeconds : Int)), (now : Int))

/-- One per-method step of UpdateStats (the body of the range loop over
reqMethods in proxy_targets.go). -/
def updateStatsMethodStep (success : Bool) (responseTimeMs : Int) (now : Nat)
    (ms : List (String × TargetRestriction)) (rm : String) :
    List (String × TargetRestriction) :=
  let restriction :=
    match lookupRestriction ms rm with
    | some r => if success then r.addLastResponsesTimeMs responseTimeMs else r
    | none =>
      if !success then { TargetRestriction.zero with notAvailable := true }
      else { TargetRestriction.zero with lastResponsesTimeMs := [responseTimeMs] }
  let restriction :=
    if !success then
      { restriction with
        successCounter := 0
        errCounter := restriction.errCounter + 1
        jailExpireTime :=
          (now : Int) + (targetJailTimeSec : Int) * ((restriction.errCounter : Int) + 1) }
    else if restriction.successCounter < consecutiveSuccessResponses then
      { restriction with successCounter := restriction.successCounter + 1 }
    else
      { restriction with successCounter := 0, errCounter := 0 }
  setRestriction ms rm restriction

/-- Marking pass of UpdateStats for an ErrMethodNotAvailable analyze error:
every method of the payload gets its notAvailable flag set. -/
def markNotAvailable (ms : List (String × TargetRestriction))
    (payload : List String) : List (String × TargetRestriction) :=
  payload.foldl (fun ms method =>
    setRestriction ms method
      { findRestriction ms method with notAvailable := true }) ms

/-- Method UpdateStats of proxyTarget (proxy_targets.go).  The two calls to
time.Now() inside the method are modelled by the single parameter `now`. -/
def UpdateStats (t : ProxyTargetState) (success : Bool) (reqMethods : List String)
    (responseTimeMs slotAmount : Int) (analyzeErr : Option AnalyzeError)
    (now : Nat) : ProxyTargetState :=
  if t.targetType = FromConfigTargetType then t
  else
    let currentWindow := (getCurrentTimeWindow now).fst
    let t :=
      if t.reqWindow < currentWindow then
        { t with reqWindow := currentWindow, reqCounter := 0 }
      else t
    let t := { t with reqCounter := t.reqCounter + 1 }
    let t :=
      match analyzeErr with
      | some ae =>
        if ae.isMethodNotAvailable then
          { t with availableMethods := markNotAvailable t.availableMethods ae.payload }
        else t
      | none => t
    let t := if slotAmount ≠ 0 then { t with slotAmount := slotAmount } else t
    { t with availableMethods :=
        (reqMethods.foldl (updateStatsMethodStep success responseTimeMs now)
          t.availableMethods) }

/-- Token classes from models (user_token_types.go); only the two classes
inspected by isAvailable are distinguished. -/
inductive TokenType where
  | defaultToken
  | reliable
  | speed
  | firstEndpoint
deriving Repr, DecidableEq

/-- Method name constants used by the eligibility and classification code
(internal/pkg/chains/solana). -/
def GetBlock : String := "getBlock"

def GetBlockTime : String := "getBlockTime"

def GetBlockCommitment : String := "getBlockCommitment"

def GetConfirmedBlock : String := "getConfirmedBlock"

def GetTransaction : String := "getTransaction"

def GetLeaderSchedule : String := "getLeaderSchedule"

def GetSignaturesForAddress : String := "getSignaturesForAddress"

def GetSignatureStatuses : String := "getSignatureStatuses"

/-- Predicate BlockRelatedMethod from the solana chain package. -/
def BlockRelatedMethod (method : String) : Bool :=
  method = GetBlock || method = GetBlockTime || method = GetBlockCommitment ||
    method = GetConfirmedBlock

/-- Predicate TxRelatedMethod from the solana chain package. -/
def TxRelatedMethod (method : String) : Bool :=
  method = GetTransaction || method = GetLeaderSchedule ||
    method = GetSignaturesForAddress || method = GetSignatureStatuses

/-- Go int64 conversion of a float value, truncating toward zero; the float
arithmetic of calculateSlot is modelled exactly over the rationals. -/
def truncQ (q : Rat) : Int :=
  q.num.tdiv (q.den : Int)

/-- Constant slotsPerSec = 2.5 from the transports. -/
def slotsPerSec : Rat := 5 / 2

/-- Function calculateSlot from unified_transport.go (identical to the one in
the public transport): mainnetSlot + int64(time.Since(getSlotTime).Seconds()
multiplied by slotsPerSec) - slot. -/
def calculateSlot (mainnetSlot : Int) (getSlotTimeUnix : Int) (slot : Int)
    (now : Int) : Int :=
  mainnetSlot + truncQ (((now - getSlotTimeUnix : Int) : Rat) * slotsPerSec) - slot

/-- Result triple of isAvailable. -/
structure AvailabilityResult where
  isAvailable : Bool
  failedReqs : Nat
  lastRespTime : Int
deriving Repr, DecidableEq

/-- Body of the range loop over reqMethods in isAvailable.  An early
`return false` surfaces as isAvailable = false carrying the accumulator
values current at the return, exactly like the Go named return values. -/
def isAvailableMethodStep (t : ProxyTargetState) (containScannedMethods : Bool)
    (reqType : TokenType) (mainnetSlot : Int) (getSlotTimeUnix : Int)
    (isFailover : Bool) (reqBlock : Int) (timeNow : Int)
    (acc : Nat × Int) (rm : String) : Bool × Nat × Int :=
  let am := findRestriction t.availableMethods rm
  let ok := (lookupRestriction t.availableMethods rm).isSome
  if am.notAvailable then (false, acc.fst, acc.snd)
  else if timeNow < am.jailExpireTime then (false, acc.fst, acc.snd)
  else if containScannedMethods && !ok && !isFailover then (false, acc.fst, acc.snd)
  else
    let blockFail :=
      BlockRelatedMethod rm &&
        (!isFailover && !t.isFullHistory &&
          decide (reqBlock <
            calculateSlot mainnetSlot getSlotTimeUnix t.slotAmount timeNow))
    if blockFail then (false, acc.fst, acc.snd)
    else
      let failedReqs :=
        if reqType = TokenType.reliable ∧ acc.fst < am.errCounter then
          if !t.isFullHistory && TxRelatedMethod rm then
            am.errCounter * 2 + noFullHistoryPenalty
          else am.errCounter
        else acc.fst
      let lastRespTime :=
        if reqType = TokenType.speed ∧ acc.snd < am.getLastResponsesTimeMs then
          am.getLastResponsesTimeMs
        else acc.snd
      (true, failedReqs, lastRespTime)

/-- Loop of isAvailable over the request methods. -/
def isAvailableLoop (t : ProxyTargetState) (containScannedMethods : Bool)
    (reqType : TokenType) (mainnetSlot : Int) (getSlotTimeUnix : Int)
    (isFailover : Bool) (reqBlock : Int) (timeNow : Int)
    (acc : Nat × Int) : List String → Bool × Nat × Int
  | [] => (true, acc.fst, acc.snd)
  | rm :: rest =>
    let step := isAvailableMethodStep t containScannedMethods reqType mainnetSlot
      getSlotTimeUnix isFailover reqBlock timeNow acc rm
    if step.fst then
      isAvailableLoop t containScannedMethods reqType mainnetSlot
        getSlotTimeUnix isFailover reqBlock timeNow step.snd rest
    else step

/-- Method isAvailable of proxyTarget (proxy_targets.go).  The request block
height read from the context is the parameter `reqBlock`. -/
def isAvailable (t : ProxyTargetState) (reqMethods : List String)
    (containScannedMethods : Bool) (reqType : TokenType) (mainnetSlot : Int)
    (getSlotTimeUnix : Int) (isFailover : Bool) (reqBlock : Int)
    (now : Nat) : AvailabilityResult :=
  let w := getCurrentTimeWindow now
  let currentWindow := w.fst
  let timeNow := w.snd
  if !t.isAlive then
    { isAvailable := false, failedReqs := 0, lastRespTime := 0 }
  else if 0 < t.reqLimit ∧ currentWindow = t.reqWindow ∧ t.reqLimit ≤ t.reqCounter then
    { isAvailable := false, failedReqs := 0, lastRespTime := 0 }
  else
    let res := isAvailableLoop t containScannedMethods reqType mainnetSlot
      getSlotTimeUnix isFailover reqBlock timeNow (0, 0) reqMethods
    { isAvailable := res.fst, failedReqs := res.snd.fst, lastRespTime := res.snd.snd }

/-! ## Weighted probabilistic selector (balancer.go) -/

/-- Error values returned by the balancer constructor and GetNext. -/
inductive BalancerError where
  | lenMismatch
  | noTargets
  | negativeWeight
  | zeroTotalWeight
  | allExcluded
  | internalNoTargetSelected
deriving Repr, DecidableEq

/-- State of ProbabilisticBalancer after construction: the target list, the
normalized weights and their cumulative sums.  The per-balancer random
number generator is modelled by passing an explicit draw to GetNext. -/
structure ProbabilisticBalancer (T : Type) where
  targets : List T
  weights : List Rat
  cumulativeWeights : List Rat
deriving Repr, DecidableEq

/-- Running cumulative sums, matching the construction loop in
NewProbabilisticBalancer. -/
def cumulativeOf (acc : Rat) : List Rat → List Rat
  | [] => []
  | w :: ws => (acc + w) :: cumulativeOf (acc + w) ws

/-- Constructor NewProbabilisticBalancer from balancer.go, with its checks in
source order. -/
def NewProbabilisticBalancer {T : Type} (targets : List T) (weights : List Rat) :
    Except BalancerError (ProbabilisticBalancer T) :=
  if targets.length ≠ weights.length then .error .lenMismatch
  else if targets.length = 0 then .error .noTargets
  else if weights.any (fun w => w < 0) then .error .negativeWeight
  else
    let totalWeight := weights.sum
    if totalWeight = 0 then .error .zeroTotalWeight
    else
      let normalizedWeights := weights.map (fun w => w / totalWeight)
      .ok { targets := targets
            weights := normalizedWeights
            cumulativeWeights := cumulativeOf 0 normalizedWeights }

/-- Fast-path scan of GetNext: the first index whose cumulative weight is at
least the random value. -/
def findCumIdx (randomValue : Rat) : List Rat → Nat → Option Nat
  | [], _ => none
  | cw :: rest, i => if randomValue ≤ cw then some i else findCumIdx randomValue rest (i + 1)

/-- Slow-path scan of GetNext: walk the targets (by index), skip the entries
named by the sorted exclusion list via the moving excludeIndex pointer, and
build the filtered index list, the reduced cumulative weights and the
reduced total. -/
def buildFiltered (ex : List Nat) : List Rat → Nat → Nat → Rat →
    List Nat × List Rat × Rat
  | [], _, _, acc => ([], [], acc)
  | w :: ws, i, exIdx, acc =>
    if ex.get? exIdx = some i then
      buildFiltered ex ws (i + 1) (exIdx + 1) acc
    else
      let rest := buildFiltered ex ws (i + 1) exIdx (acc + w)
      (i :: rest.fst, (acc + w) :: rest.snd.fst, rest.snd.snd)

/-- Selection among the filtered indices: first position whose reduced
cumulative weight reaches the scaled random value, with the final fallback
to the last filtered index (selectedOriginalIndex == -1 branch). -/
def pickFiltered (filtered : List Nat) (cumW : List Rat) (randomValue : Rat)
    (fallback : Nat) : Nat :=
  match filtered, cumW with
  | [], _ => fallback
  | _, [] => fallback
  | i :: fRest, cw :: cRest =>
    if randomValue ≤ cw then i else pickFiltered fRest cRest randomValue i

/-- Method GetNext of ProbabilisticBalancer.  The uniform draw of the Go
random generator is the explicit parameter u (a rational in [0, 1)); the Go
in-place sort.Ints is modelled by insertion sort, which computes the same
sorted list. -/
def ProbabilisticBalancer.GetNext {T : Type} (p : ProbabilisticBalancer T)
    (exclude : List Nat) (u : Rat) : Except BalancerError (T × Nat) :=
  if p.targets.length = 0 then .error .noTargets
  else if exclude.length = 0 then
    match findCumIdx u p.cumulativeWeights 0 with
    | some i =>
      match p.targets.get? i with
      | some t => .ok (t, i)
      | none => .error .internalNoTargetSelected
    | none => .error .internalNoTargetSelected
  else
    let sortedExclude := exclude.insertionSort (· ≤ ·)
    let scan := buildFiltered sortedExclude p.weights 0 0 0
    let filteredIndices := scan.fst
    let cumulativeWeights := scan.snd.fst
    let cumulativeSum := scan.snd.snd
    match filteredIndices with
    | [] => .error .allExcluded
    | i0 :: _ =>
      if cumulativeSum = 0 then
        match p.targets.get? i0 with
        | some t => .ok (t, i0)
        | none => .error .internalNoTargetSelected
      else
        let randomValue := u * cumulativeSum
        let sel := pickFiltered filteredIndices cumulativeWeights randomValue i0
        match p.targets.get? sel with
        | some t => .ok (t, sel)
        | none => .error .internalNoTargetSelected

/-- Method IsAvailable of ProbabilisticBalancer. -/
def ProbabilisticBalancer.IsAvailable {T : Type} (p : ProbabilisticBalancer T) : Bool :=
  0 < p.targets.length

/-- Method GetTargetsCount of ProbabilisticBalancer. -/
def ProbabilisticBalancer.GetTargetsCount {T : Type} (p : ProbabilisticBalancer T) : Nat :=
  p.targets.length

/-! ## Method-based router (method_router.go) -/

/-- Modelled from the spec: the ProxyTarget struct used by the method router
and the unified transport is defined in a solana-package file that is absent
from src/ (only its construction and use sites are present).  Section 3 of
the spec and the use sites fix the fields read by the routing and dispatch
code: the endpoint url and the opaque provider label.  The mutable health
state attached to it is tracked separately in a store keyed by url (see
`DispatchState`), following spec section 4.1. -/
structure TargetRef where
  url : String
  provider : String
deriving Repr, DecidableEq

/-- CNFTMethodList keys from internal/pkg/chains/solana/c_nft.go (the uint
cost values are irrelevant to routing). -/
def CNFTMethodList : List String :=
  ["getAsset", "getAssetBatch", "getAssetProof", "getAssetProofBatch",
   "getAssetsByOwner", "getAssetsByAuthority", "getAssetsByCreator",
   "getAssetsByGroup", "getGrouping", "searchAssets", "getTokenAccounts",
   "getSignaturesForAsset", "getSignaturesForAssetV2", "getAuraHealth",
   "getAssets", "get_assets", "getAssetProofs", "get_asset_proofs",
   "getAssetSignatures", "get_asset_signatures", "getAssetSignaturesV2",
   "get_asset_signatures_v2"]

/-- Constant WebSocketMethodName ("websocket:connect") referenced by the
adapter when routing WebSocket upgrades. -/
def WebSocketMethodName : String := "websocket:connect"

/-- Configuration types from configtypes (config_types.go). -/
structure MethodGroupConfig where
  name : String
  methods : List String
deriving Repr, DecidableEq

structure EndpointConfig where
  url : String
  weight : Rat
  methods : List String
  methodGroups : List String
  excludeMethods : List String
  handleOther : Bool
  handleWebSocket : Bool
deriving Repr, DecidableEq

structure ProviderConfig where
  name : String
  endpoints : List EndpointConfig
deriving Repr, DecidableEq

/-- Legacy node entry (configtypes.SolanaNode); only the fields read by the
router are modelled. -/
structure SolanaNode where
  url : String
  provider : String
deriving Repr, DecidableEq

structure SolanaConfig where
  dasAPINodes : List SolanaNode
  basicRouteNodes : List SolanaNode
  wsHostNodes : List SolanaNode
  methodGroups : List MethodGroupConfig
  providers : List ProviderConfig
deriving Repr, DecidableEq

/-- Constant DefaultEndpointWeight = 1.0. -/
def DefaultEndpointWeight : Rat := 1

/-- Struct methodTargetInfo: targets, weights and the balancer, which stays
nil (none) until the balancer-construction pass runs for the entry. -/
structure MethodTargetInfo where
  targets : List TargetRef
  weights : List Rat
  balancer : Option (ProbabilisticBalancer TargetRef)
deriving Repr, DecidableEq

def MethodTargetInfo.empty : MethodTargetInfo :=
  { targets := [], weights := [], balancer := none }

/-- Struct MethodBasedRouter.  The Go maps methodMap and supportedMethods are
association list and list; the providers reverse index, the mutex and log
warnings are observability-only and not modelled. -/
structure MethodBasedRouter where
  methodMap : List (String × MethodTargetInfo)
  defaultTargetInfo : Option MethodTargetInfo
  wsTargetInfo : Option MethodTargetInfo
  supportedMethods : List String
deriving Repr, DecidableEq

def lookupInfo : List (String × MethodTargetInfo) → String →
    Option MethodTargetInfo
  | [], _ => none
  | p :: rest, k => if p.fst = k then some p.snd else lookupInfo rest k

def setInfo (m : List (String × MethodTargetInfo)) (k : String)
    (v : MethodTargetInfo) : List (String × MethodTargetInfo) :=
  match m with
  | [] => [(k, v)]
  | p :: rest => if p.fst = k then (k, v) :: rest else p :: setInfo rest k v

/-- Append a (target, weight) pair to an optional methodTargetInfo, creating
it first when it is nil (the get-or-create pattern of processProviders). -/
def appendTarget (info : Option MethodTargetInfo) (t : TargetRef) (w : Rat) :
    MethodTargetInfo :=
  let i := info.getD MethodTargetInfo.empty
  { i with targets := i.targets ++ [t], weights := i.weights ++ [w] }

/-- Method-group expansion for one endpoint: groups are looked up in the
router's methodGroups index (unresolved references are logged and ignored),
then the explicitly listed methods are appended. -/
def expandedMethodsOf (groups : List MethodGroupConfig) (e : EndpointConfig) :
    List String :=
  (e.methodGroups.foldl (fun acc g =>
    match groups.find? (fun mg => mg.name = g) with
    | some mg => acc ++ mg.methods
    | none => acc) []) ++ e.methods

/-- Clamped endpoint weight: non-positive weights are replaced by the
default 1.0. -/
def endpointWeight (e : EndpointConfig) : Rat :=
  if e.weight ≤ 0 then DefaultEndpointWeight else e.weight

/-- Body of the per-method loop of processProviders: skip an excluded
method, otherwise append the (target, weight) pair to the method-map entry
and mark the method supported. -/
def processEndpointAddMethod (target : TargetRef) (weight : Rat)
    (excludeMethods : List String) (r : MethodBasedRouter) (method : String) :
    MethodBasedRouter :=
  if excludeMethods.contains method then r
  else
    let info := (lookupInfo r.methodMap method).getD MethodTargetInfo.empty
    let info := { info with
      targets := info.targets ++ [target], weights := info.weights ++ [weight] }
    { r with
      methodMap := setInfo r.methodMap method info
      supportedMethods :=
        if r.supportedMethods.contains method then r.supportedMethods
        else r.supportedMethods ++ [method] }

/-- Per-endpoint routing updates of processProviders (the body of the inner
endpoint loop): method-map additions, the `supportedMethods` mark, and the
wsTargetInfo / defaultTargetInfo appends. -/
def processEndpoint (groups : List MethodGroupConfig) (providerName : String)
    (r : MethodBasedRouter) (e : EndpointConfig) : MethodBasedRouter :=
  let target : TargetRef := { url := e.url, provider := providerName }
  let weight := endpointWeight e
  let r :=
    (expandedMethodsOf groups e).foldl
      (processEndpointAddMethod target weight e.excludeMethods) r
  let r :=
    if e.handleWebSocket then
      { r with wsTargetInfo := some (appendTarget r.wsTargetInfo target weight) }
    else r
  if e.handleOther then
    { r with defaultTargetInfo := some (appendTarget r.defaultTargetInfo target weight) }
  else r

/-- Balancer-construction pass at the end of processProviders: build the
balancer of every populated methodTargetInfo, propagating construction
errors. -/
def buildInfoBalancer (info : MethodTargetInfo) :
    Except BalancerError MethodTargetInfo :=
  if 0 < info.targets.length then
    match NewProbabilisticBalancer info.targets info.weights with
    | .ok b => .ok { info with balancer := some b }
    | .error e => .error e
  else .ok info

def buildMethodMapBalancers (m : List (String × MethodTargetInfo)) :
    Except BalancerError (List (String × MethodTargetInfo)) :=
  match m with
  | [] => .ok []
  | (k, info) :: rest =>
    match buildInfoBalancer info with
    | .error e => .error e
    | .ok info2 =>
      match buildMethodMapBalancers rest with
      | .error e => .error e
      | .ok rest2 => .ok ((k, info2) :: rest2)

/-- Balancer construction for an optional methodTargetInfo (the trailing
wsTargetInfo / defaultTargetInfo blocks of processProviders): built only
when the info exists and has targets. -/
def buildOptInfoBalancer (o : Option MethodTargetInfo) :
    Except BalancerError (Option MethodTargetInfo) :=
  match o with
  | none => .ok none
  | some i =>
    if 0 < i.targets.length then
      match NewProbabilisticBalancer i.targets i.weights with
      | .error e => .error e
      | .ok b => .ok (some { i with balancer := some b })
    else .ok (some i)

/-- Function processProviders of MethodBasedRouter. -/
def processProviders (groups : List MethodGroupConfig) (r : MethodBasedRouter)
    (providers : List ProviderConfig) : Except BalancerError MethodBasedRouter :=
  let r := providers.foldl (fun r p =>
    p.endpoints.foldl (processEndpoint groups p.name) r) r
  match buildMethodMapBalancers r.methodMap with
  | .error e => .error e
  | .ok mm =>
    match buildOptInfoBalancer r.wsTargetInfo with
    | .error e => .error e
    | .ok ws =>
      match buildOptInfoBalancer r.defaultTargetInfo with
      | .error e => .error e
      | .ok d =>
        .ok { r with methodMap := mm, wsTargetInfo := ws, defaultTargetInfo := d }

/-- Per-method body of processBatchNodes: install a balancer-backed
methodTargetInfo for the method (when there are targets) and mark it
supported. -/
def processBatchNodesStep (targets : List TargetRef) (weights : List Rat)
    (acc : Except BalancerError MethodBasedRouter) (method : String) :
    Except BalancerError MethodBasedRouter :=
  match acc with
  | .error e => .error e
  | .ok r =>
    if 0 < targets.length then
      match NewProbabilisticBalancer targets weights with
      | .error e => .error e
      | .ok b =>
        let info : MethodTargetInfo :=
          { targets := targets, weights := weights, balancer := some b }
        .ok { r with
          methodMap := setInfo r.methodMap method info
          supportedMethods :=
            if r.supportedMethods.contains method then r.supportedMethods
            else r.supportedMethods ++ [method] }
    else
      .ok { r with supportedMethods :=
        if r.supportedMethods.contains method then r.supportedMethods
        else r.supportedMethods ++ [method] }

/-- Function processBatchNodes of MethodBasedRouter: turn legacy nodes into
targets with default weights, then run the per-method step for each method
of methodsToAdd. -/
def processBatchNodes (r : MethodBasedRouter) (nodes : List SolanaNode)
    (methodsToAdd : List String) :
    Except BalancerError (MethodBasedRouter × List TargetRef × List Rat) :=
  let targets := nodes.map (fun n => ({ url := n.url, provider := n.provider } : TargetRef))
  let weights := nodes.map (fun _ => DefaultEndpointWeight)
  match methodsToAdd.foldl (processBatchNodesStep targets weights) (.ok r) with
  | .error e => .error e
  | .ok r => .ok (r, targets, weights)

/-- DAS block of processLegacyConfig. -/
def legacyDasStep (r : MethodBasedRouter) (cfg : SolanaConfig) :
    Except BalancerError MethodBasedRouter :=
  if 0 < cfg.dasAPINodes.length then
    match processBatchNodes r cfg.dasAPINodes CNFTMethodList with
    | .error e => .error e
    | .ok (r2, _, _) => .ok r2
  else .ok r

/-- WebSocket-host block of processLegacyConfig. -/
def legacyWsStep (r : MethodBasedRouter) (cfg : SolanaConfig) :
    Except BalancerError MethodBasedRouter :=
  if 0 < cfg.wsHostNodes.length then
    match processBatchNodes r cfg.wsHostNodes [] with
    | .error e => .error e
    | .ok (r2, targets, weights) =>
      if 0 < targets.length then
        match NewProbabilisticBalancer targets weights with
        | .error e => .error e
        | .ok b =>
          .ok { r2 with wsTargetInfo :=
            (some { targets := targets, weights := weights, balancer := some b }) }
      else .ok r2
  else .ok r

/-- Basic-route block of processLegacyConfig. -/
def legacyBasicStep (r : MethodBasedRouter) (cfg : SolanaConfig) :
    Except BalancerError MethodBasedRouter :=
  if 0 < cfg.basicRouteNodes.length then
    match processBatchNodes r cfg.basicRouteNodes [] with
    | .error e => .error e
    | .ok (r2, targets, weights) =>
      if 0 < targets.length then
        match NewProbabilisticBalancer targets weights with
        | .error e => .error e
        | .ok b =>
          .ok { r2 with defaultTargetInfo :=
            (some { targets := targets, weights := weights, balancer := some b }) }
      else .ok r2
  else .ok r

/-- Function processLegacyConfig of MethodBasedRouter: the DAS, WebSocket
and basic-route blocks in source order, each propagating errors. -/
def processLegacyConfig (r : MethodBasedRouter) (cfg : SolanaConfig) :
    Except BalancerError MethodBasedRouter :=
  match legacyDasStep r cfg with
  | .error e => .error e
  | .ok r =>
    match legacyWsStep r cfg with
    | .error e => .error e
    | .ok r => legacyBasicStep r cfg

/-- Constructor NewMethodBasedRouter (method_router.go). -/
def NewMethodBasedRouter (cfg : SolanaConfig) :
    Except BalancerError MethodBasedRouter :=
  let router : MethodBasedRouter :=
    { methodMap := [], defaultTargetInfo := none, wsTargetInfo := none
      supportedMethods := [] }
  match processProviders cfg.methodGroups router cfg.providers with
  | .error e => .error e
  | .ok r => processLegacyConfig r cfg

/-- Method GetBalancerForMethod of MethodBasedRouter (the current version in
method_router.go, which has no special case for the WebSocket method name):
the method entry when it exists and carries a balancer, otherwise the
default balancer, otherwise not found. -/
def GetBalancerForMethod (r : MethodBasedRouter) (method : String) :
    Option (ProbabilisticBalancer TargetRef) :=
  match lookupInfo r.methodMap method with
  | some info =>
    match info.balancer with
    | some b => some b
    | none => fallbackDefault r
  | none => fallbackDefault r
where
  fallbackDefault (r : MethodBasedRouter) : Option (ProbabilisticBalancer TargetRef) :=
    match r.defaultTargetInfo with
    | some d => d.balancer
    | none => none

/-- Method IsMethodSupported of MethodBasedRouter. -/
def IsMethodSupported (r : MethodBasedRouter) (method : String) : Bool :=
  if r.supportedMethods.contains method then true
  else
    match r.defaultTargetInfo with
    | some d =>
      match d.balancer with
      | some b => b.IsAvailable
      | none => false
    | none => false

/-! ## Response classification (response_analysis.go) -/

/-- Solana JSON-RPC error codes (internal/pkg/chains/solana). -/
def BlockCleanedUpErrCode : Int := -32001

def SendTransactionPreflightFailureErrCode : Int := -32002

def TransactionSignatureVerificationFailureErrCode : Int := -32003

def BlockNotAvailableErrCode : Int := -32004

def NodeUnhealthyErrCode : Int := -32005

def TransactionPrecompileVerificationFailureErrCode : Int := -32006

def SlotSkippedErrCode : Int := -32007

def LongTermStorageSlotSkippedErrCode : Int := -32009

def TransactionHistoryNotAvailableErrCode : Int := -32011

def TransactionSignatureLenMismatchErrCode : Int := -32013

def BlockStatusNotAvailableYetErrCode : Int := -32014

def UnsupportedTransactionVersionErrCode : Int := -32015

def ParseErrCode : Int := -32700

def InvalidRequestErrCode : Int := -32600

def MethodNotFoundErrCode : Int := -32601

def InvalidParamsErrCode : Int := -32602

/-- Function GetFirstAvailableSlot from the solana chain package: the number
after the last ": " separator of the BlockCleanedUp message. -/
def GetFirstAvailableSlot (message : String) : Option Nat :=
  match (message.splitOn ": ").getLast? with
  | some s => s.toNat?
  | none => none

/-- Minimal JSON value tree for upstream response bodies; objects keep their
fields as an ordered association list (jsonparser reads the first
occurrence of a key). -/
inductive Json where
  | null
  | boolean (b : Bool)
  | num (n : Int)
  | str (s : String)
  | arr (elems : List Json)
  | obj (fields : List (String × Json))
deriving Repr

/-- Null test used for the getBlock empty-result comparison
(bytes.Equal(res, EmptyResponse) on the raw field value). -/
def Json.isNull : Json → Bool
  | .null => true
  | _ => false

/-- Field access modelling jsonparser.Get: succeeds only on an object that
contains the key. -/
def jget (j : Json) (key : String) : Option Json :=
  match j with
  | .obj fields =>
    match fields.find? (fun p => p.fst = key) with
    | some p => some p.snd
    | none => none
  | _ => none

/-- Integer field access modelling jsonparser.GetInt with its error value
collapsed to 0 (exactly how checkRPCResp consumes it). -/
def jgetInt (j : Json) (key : String) : Int :=
  match jget j key with
  | some (.num n) => n
  | _ => 0

/-- String field access modelling jsonparser.GetString with the error value
collapsed to the empty string. -/
def jgetString (j : Json) (key : String) : String :=
  match jget j key with
  | some (.str s) => s
  | _ => ""

/-- Upstream response body: either empty bytes or a JSON value (a body whose
first byte is neither a brace nor a bracket is any non-object non-array
JSON value here). -/
inductive RespBody where
  | empty
  | val (j : Json)
deriving Repr

/-- Emptiness test len(respBody) == 0. -/
def RespBody.isEmpty : RespBody → Bool
  | .empty => true
  | .val _ => false

/-- First byte of the serialized value, used only by the invalid-first-symbol
error of decodeNodeResponse. -/
def Json.firstByte : Json → Char
  | .null => Char.ofNat 110
  | .boolean b => if b then Char.ofNat 116 else Char.ofNat 102
  | .num _ => Char.ofNat 48
  | .str _ => Char.ofNat 34
  | .arr _ => Char.ofNat 91
  | .obj _ => Char.ofNat 123

/-- Errors produced by decodeNodeResponse / checkRPCResp.  The rpcError case
is the only one that matches errors.As with a jsonrpc.RPCError target; its
data field carries the request method assigned in decodeNodeResponse. -/
inductive RespErr where
  | emptyBody
  | emptyResponseBody
  | emptyResponseField
  | emptyRequestArr
  | invalidFirstSymbol (c : Char)
  | arrayIndexNotFound (idx : Nat)
  | rpcError (code : Int) (message : String) (method : String)
deriving Repr, DecidableEq

/-- Function checkRPCResp: returns the extracted error code (0 when none)
and the per-object error. -/
def checkRPCResp (body : Json) (reqMethod : String) : Int × Option RespErr :=
  if (jget body "jsonrpc").isNone then (0, some .emptyResponseBody)
  else
    match jget body "error" with
    | some errObj =>
      let errCode := jgetInt errObj "code"
      if errCode ≠ 0 then
        (errCode, some (.rpcError errCode (jgetString errObj "message") reqMethod))
      else checkRPCRespResult body reqMethod
    | none => checkRPCRespResult body reqMethod
where
  /-- Trailing getBlock null-result check of checkRPCResp. -/
  checkRPCRespResult (body : Json) (reqMethod : String) : Int × Option RespErr :=
    if reqMethod = GetBlock ∧ ((jget body "result").map Json.isNull).getD false then
      (0, some .emptyResponseField)
    else (0, none)

/-- Array walk of decodeNodeResponse (jsonparser.ArrayEach callback):
accumulates per-element errors and error codes, indexing into the request
methods. -/
def decodeArrayLoop (rpcMethods : List String) :
    List Json → Nat → List RespErr × List Int
  | [], _ => ([], [])
  | v :: rest, curIdx =>
    if rpcMethods.length ≤ curIdx then
      let acc := decodeArrayLoop rpcMethods rest curIdx
      (.arrayIndexNotFound curIdx :: acc.fst, acc.snd)
    else
      let r := checkRPCResp v (rpcMethods.getD curIdx "")
      let acc := decodeArrayLoop rpcMethods rest (curIdx + 1)
      ((match r.snd with
        | some e => e :: acc.fst
        | none => acc.fst),
       (if r.fst ≠ 0 then r.fst :: acc.snd else acc.snd))

/-- Function decodeNodeResponse: dispatch on the first byte of the body and
collect errors plus RPC error codes.  It returns the error list together
with the code list the caller stores on the request context (the context
rpcErrors field is first cleared, then set when codes were collected). -/
def decodeNodeResponse (reqMethod : String) (reqMethods : List String)
    (body : RespBody) : List RespErr × List Int :=
  match body with
  | .empty => ([.emptyBody], [])
  | .val (.obj fields) =>
    let r := checkRPCResp (.obj fields) reqMethod
    ((match r.snd with
      | some e => [e]
      | none => []),
     (if r.fst ≠ 0 then [r.fst] else []))
  | .val (.arr elems) => decodeArrayLoop reqMethods elems 0
  | .val j => ([.invalidFirstSymbol j.firstByte], [])

/-- Membership test of the UserError code switch in rpcErrorAnalysis. -/
def isUserErrSwitchCode (code : Int) : Bool :=
  code = SendTransactionPreflightFailureErrCode ||
  code = TransactionSignatureVerificationFailureErrCode ||
  code = TransactionPrecompileVerificationFailureErrCode ||
  code = TransactionSignatureLenMismatchErrCode ||
  code = UnsupportedTransactionVersionErrCode ||
  code = ParseErrCode ||
  code = InvalidRequestErrCode ||
  code = InvalidParamsErrCode ||
  code = SlotSkippedErrCode ||
  code = LongTermStorageSlotSkippedErrCode ||
  code = BlockNotAvailableErrCode ||
  code = BlockStatusNotAvailableYetErrCode

/-- Probe strings of the InvalidParams exception in rpcErrorAnalysis. -/
def bigTableProbe : String := "BigTable query failed (maybe timeout due to too large range"

def blockstoreProbe : String := "blockstore error"

/-- Predicate isMethodNotAvailableByErrCode. -/
def isMethodNotAvailableByErrCode (code : Int) : Bool :=
  code = MethodNotFoundErrCode || code = TransactionHistoryNotAvailableErrCode

/-- Result quadruple of rpcErrorAnalysis: first slot surfaced by a
BlockCleanedUp message, the user-error flag, the method-not-available
analyze error, and whether a joined error string remains to be logged. -/
structure AnalysisResult where
  firstSlotOnNode : Int
  invalidReqErr : Bool
  analyzeErr : Option AnalyzeError
  hasJoinedErr : Bool
deriving Repr, DecidableEq

/-- Loop body of rpcErrorAnalysis over the decoded error list. -/
def rpcErrorAnalysisStep (acc : AnalysisResult) (e : RespErr) : AnalysisResult :=
  match e with
  | .rpcError code message method =>
    let acc :=
      if code = BlockCleanedUpErrCode then
        match GetFirstAvailableSlot message with
        | some slot => { acc with firstSlotOnNode := (slot : Int) }
        | none => acc
      else acc
    if isUserErrSwitchCode code then
      if code = InvalidParamsErrCode &&
          (goContains message bigTableProbe || goContains message blockstoreProbe) then
        -- the break of the switch: fall through to the generic handling below
        if isMethodNotAvailableByErrCode code then
          { acc with analyzeErr :=
              (match acc.analyzeErr with
               | none => some { isMethodNotAvailable := true, payload := [method] }
               | some ae => some { ae with payload :=
                  (if ae.payload.contains method then ae.payload else ae.payload ++ [method]) }) }
        else { acc with hasJoinedErr := true }
      else { acc with invalidReqErr := true }
    else if isMethodNotAvailableByErrCode code then
      { acc with analyzeErr :=
          (match acc.analyzeErr with
           | none => some { isMethodNotAvailable := true, payload := [method] }
           | some ae => some { ae with payload :=
              (if ae.payload.contains method then ae.payload else ae.payload ++ [method]) }) }
    else { acc with hasJoinedErr := true }
  | _ => { acc with hasJoinedErr := true }

/-- Function rpcErrorAnalysis (response_analysis.go), as a fold of the step
over the decoded errors; an empty list returns the zero result
immediately. -/
def rpcErrorAnalysis (errs : List RespErr) : AnalysisResult :=
  errs.foldl rpcErrorAnalysisStep
    { firstSlotOnNode := 0, invalidReqErr := false, analyzeErr := none
      hasJoinedErr := false }

/-! ## Unified dispatcher (unified_transport.go) -/

/-- Error response constants from internal/pkg/util/errors.go. -/
def ExtraNodeNoAvailableTargetsCode : Int := 2000

def ExtraNodeNoAvailableTargetsMessage : String := "No available targets"

def ExtraNodeAttemptsExceededCode : Int := 2001

def ExtraNodeAttemptsExceededMessage : String := "Attempts exceeded"

/-- Constant DefaultMaxAttempts = 10. -/
def DefaultMaxAttempts : Nat := 10

/-- Context error of the Go request context (context.DeadlineExceeded or
context.Canceled). -/
inductive CtxErr where
  | deadlineExceeded
  | canceled
deriving Repr, DecidableEq

/-- Transport-level error of the HTTP client, carrying its message string
and identity flags for the sentinel errors compared with errors.Is and
pointer equality in isMutedErr. -/
structure TransportErr where
  msg : String
  isBadStatusCode : Bool
  isCtxDeadlineExceeded : Bool
  isCtxCanceled : Bool
deriving Repr, DecidableEq

/-- Function isMutedErr (unified_transport.go): returns (mute, isAvailable),
the second flag meaning the node is blameless. -/
def isMutedErr (err : TransportErr) (contextErr : Option CtxErr) : Bool × Bool :=
  if err.isBadStatusCode then (true, false)
  else if err.msg = "EOF" || goContains err.msg "i/o timeout" ||
      goContains err.msg "reset by peer" || goContains err.msg "connection refused" ||
      goContains err.msg "no route to host" then (true, false)
  else if err.isCtxDeadlineExceeded || err.isCtxCanceled ||
      contextErr = some CtxErr.deadlineExceeded || contextErr = some CtxErr.canceled ||
      goContains err.msg "deadline exceeded" || goContains err.msg "canceled" then
    (true, true)
  else (false, false)

/-- Fields of the request CustomContext written back by the dispatcher
(observability callbacks of the core). -/
structure CtxState where
  provider : String
  rpcErrors : List Int
  proxyUserError : Bool
deriving Repr, DecidableEq

/-- Function GetReqMethod of CustomContext: the single method, the
multiple-values marker, or the empty string. -/
def getReqMethod (methods : List String) : String :=
  if methods.length = 1 then methods.headD ""
  else if 1 < methods.length then "multiple_values"
  else ""

/-- Result of processResponse together with the context updates it makes. -/
structure ProcessResult where
  shouldRetry : Bool
  isHealthy : Bool
  firstSlotOnNode : Int
  ctx : CtxState
deriving Repr, DecidableEq

/-- Function processResponse of UnifiedTransport: transport errors are
classified with isMutedErr; otherwise the body is decoded (updating the
context rpcErrors) and analysed, a user error marks the context and ends the
attempt successfully, and any remaining response or analyze error requests a
retry. -/
def processResponse (ctx : CtxState) (reqCtxErr : Option CtxErr)
    (methods : List String) (respBody : RespBody) (err : Option TransportErr) :
    ProcessResult :=
  match err with
  | some e =>
    let m := isMutedErr e reqCtxErr
    { shouldRetry := true, isHealthy := m.snd, firstSlotOnNode := 0, ctx := ctx }
  | none =>
    let d := decodeNodeResponse (getReqMethod methods) methods respBody
    let ctx := { ctx with rpcErrors := d.snd }
    let a := rpcErrorAnalysis d.fst
    if a.invalidReqErr then
      { shouldRetry := false, isHealthy := true, firstSlotOnNode := a.firstSlotOnNode
        ctx := { ctx with proxyUserError := true } }
    else if a.hasJoinedErr || a.analyzeErr.isSome then
      { shouldRetry := true, isHealthy := false, firstSlotOnNode := a.firstSlotOnNode
        ctx := ctx }
    else
      { shouldRetry := false, isHealthy := true, firstSlotOnNode := a.firstSlotOnNode
        ctx := ctx }

/-- Modelled from the spec: method UpdateStats of the ProxyTarget struct
used by the unified path, whose defining file is absent from src/ (its
call sites pass success, methods, response time and slot amount).  Spec
section 4.1 gives the same update rules as proxyTarget.UpdateStats in
proxy_targets.go, so the state transition is realized by that function with
no analyze error. -/
def ProxyTargetUpdateStats (t : ProxyTargetState) (success : Bool)
    (methods : List String) (responseTimeMs slotAmount : Int) (now : Nat) :
    ProxyTargetState :=
  UpdateStats t success methods responseTimeMs slotAmount none now

/-- Health-state store of the dispatcher run: the mutable state of every
selector target, keyed by its url. -/
abbrev TargetStore : Type := List (String × ProxyTargetState)

/-- Store update at one url (the shared-pointer mutation of Go). -/
def updateStore (s : TargetStore) (url : String)
    (f : ProxyTargetState → ProxyTargetState) : TargetStore :=
  s.map (fun p => if p.fst = url then (p.fst, f p.snd) else p)

def lookupStore : TargetStore → String → Option ProxyTargetState
  | [], _ => none
  | p :: rest, url => if p.fst = url then some p.snd else lookupStore rest url

/-- Transport parameters of UnifiedTransport (the legacy slot fields stay at
their zero values after NewUnifiedTransport). -/
structure TransportCfg where
  maxAttempts : Nat
  currentSlot : Int
  getSlotTime : Int
deriving Repr, DecidableEq

/-- Function updateMetricsAndStats of UnifiedTransport, restricted to its
target-state effect (the Prometheus counters are observability-only). -/
def updateMetricsAndStats (tr : TransportCfg) (store : TargetStore)
    (target : TargetRef) (methods : List String) (isHealthy : Bool)
    (responseTime firstSlotOnNode : Int) (now : Nat) : TargetStore :=
  let slotAmount :=
    if firstSlotOnNode ≠ 0 then
      calculateSlot tr.currentSlot tr.getSlotTime firstSlotOnNode (now : Int)
    else firstSlotOnNode
  updateStore store target.url
    (fun t => ProxyTargetUpdateStats t isHealthy methods responseTime slotAmount now)

/-- Terminal errors of the dispatcher, mirroring the Go error values
returned by executeWithRetries (the echo.NewHTTPError payloads carry the
HTTP status and the RPC error body). -/
inductive DispatchErr where
  | noMethods
  | noBalancer (method : String)
  | ctx (e : CtxErr)
  | balancer (e : BalancerError)
  | transport (e : TransportErr)
  | httpError (status : Nat) (rpcCode : Int) (rpcMessage : String)
deriving Repr, DecidableEq

/-- Function handleEmptyResponse of UnifiedTransport: the context error wins,
then a never-selected target yields 503 with the no-available-targets body,
and otherwise the attempts-exceeded RPC code is recorded on the context
while the 500 error is built with the no-available-targets response body
(this mismatch is exactly what the source does). -/
def handleEmptyResponse (reqCtxErr : Option CtxErr) (target : Option TargetRef)
    (ctx : CtxState) : CtxState × DispatchErr :=
  match reqCtxErr with
  | some e => (ctx, .ctx e)
  | none =>
    match target with
    | none =>
      ({ ctx with rpcErrors := [ExtraNodeNoAvailableTargetsCode] },
       .httpError 503 ExtraNodeNoAvailableTargetsCode ExtraNodeNoAvailableTargetsMessage)
    | some _ =>
      ({ ctx with rpcErrors := [ExtraNodeAttemptsExceededCode] },
       .httpError 500 ExtraNodeNoAvailableTargetsCode ExtraNodeNoAvailableTargetsMessage)

/-- Per-attempt environment of one dispatcher run: the outcome of the k-th
HTTP request, the k-th draw of the balancer generator, the context error
observed at the top of iteration k (ctxErrBefore) and later within it
(ctxErrDuring), and the wall clock at the k-th stats update. -/
structure DispatchEnv where
  outcomeBody : Nat → RespBody
  outcomeStatus : Nat → Nat
  outcomeErr : Nat → Option TransportErr
  outcomeTimeMs : Nat → Int
  drawAt : Nat → Rat
  ctxErrBefore : Nat → Option CtxErr
  ctxErrDuring : Nat → Option CtxErr
  nowAt : Nat → Nat

/-- Result of executeWithRetries: the four Go return values, the final
context write-backs, the final target store, and the list of urls that
received an upstream request (the DoRequest call sequence). -/
structure DispatchResult where
  respBody : RespBody
  statusCode : Nat
  attempts : Nat
  err : Option DispatchErr
  ctx : CtxState
  store : TargetStore
  trace : List String
deriving Repr

/-- Retry loop of executeWithRetries.  The fuel is maxAttempts minus the
attempts already made; respBody, statusCode and err latch the values of the
previous iteration exactly like the Go loop variables. -/
def executeLoop (tr : TransportCfg) (b : ProbabilisticBalancer TargetRef)
    (methods : List String) (isDASMethod : Bool) (env : DispatchEnv) :
    Nat → Nat → List Nat → Option TargetRef → RespBody → Nat →
    Option TransportErr → CtxState → TargetStore → List String → DispatchResult
  | 0, attempts, _, lastTarget, respBody, statusCode, err, ctx, store, trace =>
    finishLoop attempts lastTarget respBody statusCode err ctx store trace
  | fuel + 1, attempts, excluded, lastTarget, respBody, statusCode, err, ctx, store, trace =>
    match env.ctxErrBefore attempts with
    | some e =>
      { respBody := .empty, statusCode := statusCode, attempts := attempts
        err := some (.ctx e), ctx := ctx, store := store, trace := trace }
    | none =>
      match b.GetNext excluded (env.drawAt attempts) with
      | .error ge =>
        finishLoop attempts lastTarget respBody statusCode
          (none : Option TransportErr) ctx store trace (some (.balancer ge))
      | .ok (target, targetIndex) =>
        let ctx := { ctx with provider := target.provider }
        let body := env.outcomeBody attempts
        let status := env.outcomeStatus attempts
        let derr := env.outcomeErr attempts
        let responseTime := env.outcomeTimeMs attempts
        let trace := trace ++ [target.url]
        if isDASMethod ∧ derr = none ∧ (!body.isEmpty) then
          let store := updateMetricsAndStats tr store target methods true
            responseTime 0 (env.nowAt attempts)
          { respBody := body, statusCode := status, attempts := attempts + 1
            err := none, ctx := ctx, store := store, trace := trace }
        else
          let pr := processResponse ctx (env.ctxErrDuring attempts) methods body derr
          let store := updateMetricsAndStats tr store target methods pr.isHealthy
            responseTime pr.firstSlotOnNode (env.nowAt attempts)
          if !pr.shouldRetry then
            { respBody := body, statusCode := status, attempts := attempts + 1
              err := derr.map .transport, ctx := pr.ctx, store := store, trace := trace }
          else
            executeLoop tr b methods isDASMethod env fuel (attempts + 1)
              (excluded ++ [targetIndex]) (some target) body status derr pr.ctx store trace
where
  /-- Post-loop handling of executeWithRetries: when the latched body is
  empty and no error is latched, handleEmptyResponse decides the terminal
  error.  An overriding error (the balancer error assigned by the final
  GetNext before the break) suppresses that handling. -/
  finishLoop (attempts : Nat) (lastTarget : Option TargetRef) (respBody : RespBody)
      (statusCode : Nat) (err : Option TransportErr) (ctx : CtxState)
      (store : TargetStore) (trace : List String)
      (overrideErr : Option DispatchErr := none) : DispatchResult :=
    match overrideErr with
    | some e =>
      { respBody := respBody, statusCode := statusCode, attempts := attempts
        err := some e, ctx := ctx, store := store, trace := trace }
    | none =>
      if respBody.isEmpty ∧ err = none then
        let he := handleEmptyResponse (env.ctxErrDuring attempts) lastTarget ctx
        { respBody := respBody, statusCode := statusCode, attempts := attempts
          err := some he.snd, ctx := he.fst, store := store, trace := trace }
      else
        { respBody := respBody, statusCode := statusCode, attempts := attempts
          err := err.map .transport, ctx := ctx, store := store, trace := trace }

/-- Function executeWithRetries of UnifiedTransport (unified_transport.go):
reject empty method lists, fetch the balancer for the primary method (503
when none is found or it is unavailable), then run the bounded retry
loop. -/
def executeWithRetries (tr : TransportCfg) (r : MethodBasedRouter)
    (methods : List String) (env : DispatchEnv) (ctx : CtxState)
    (store : TargetStore) : DispatchResult :=
  if methods.length = 0 then
    { respBody := .empty, statusCode := 400, attempts := 0, err := some .noMethods
      ctx := ctx, store := store, trace := [] }
  else
    let primaryMethod := methods.headD ""
    match GetBalancerForMethod r primaryMethod with
    | none =>
      { respBody := .empty, statusCode := 503, attempts := 0
        err := some (.noBalancer primaryMethod), ctx := ctx, store := store, trace := [] }
    | some b =>
      if !b.IsAvailable then
        { respBody := .empty, statusCode := 503, attempts := 0
          err := some (.noBalancer primaryMethod), ctx := ctx, store := store, trace := [] }
      else
        executeLoop tr b methods (CNFTMethodList.contains primaryMethod) env
          tr.maxAttempts 0 [] none .empty 0 none ctx store []

/-! ## WebSocket routing (adapter.go) -/

/-- Outcomes of the adapter WebSocket entry point. -/
inductive WSResult where
  | proxied (provider url : String)
  | legacy
  | noWSHandlers
  | noWSTargets
deriving Repr, DecidableEq

/-- Function methodBasedProxyWS of the adapter: take the next target from
the supplied balancer (503 on failure), record its provider on the context
and splice the reverse proxy to its url. -/
def methodBasedProxyWS (b : ProbabilisticBalancer TargetRef) (u : Rat) : WSResult :=
  match b.GetNext [] u with
  | .error _ => .noWSTargets
  | .ok (t, _) => .proxied t.provider t.url

/-- Function ProxyWSRequest of the adapter: ask the method router for the
balancer of the WebSocket method name, use it when available, otherwise fall
back to the legacy WebSocket transport, otherwise 503. -/
def ProxyWSRequest (router : Option MethodBasedRouter) (hasLegacyWS : Bool)
    (u : Rat) : WSResult :=
  match router with
  | some r =>
    match GetBalancerForMethod r WebSocketMethodName with
    | some b =>
      if b.IsAvailable then methodBasedProxyWS b u
      else if hasLegacyWS then .legacy else .noWSHandlers
    | none => if hasLegacyWS then .legacy else .noWSHandlers
  | none => if hasLegacyWS then .legacy else .noWSHandlers

/-! ## Lemmas: restriction-map plumbing -/

theorem lookupRestriction_set_self (ms : List (String × TargetRestriction))
    (k : String) (v : TargetRestriction) :
    lookupRestriction (setRestriction ms k v) k = some v := by
  induction ms with
  | nil => simp [setRestriction, lookupRestriction]
  | cons p rest ih =>
    by_cases h : p.fst = k
    · simp [setRestriction, h, lookupRestriction]
    · simp [setRestriction, h, lookupRestriction, ih]

theorem lookupRestriction_set_other (ms : List (String × TargetRestriction))
    (k k2 : String) (v : TargetRestriction) (h : k2 ≠ k) :
    lookupRestriction (setRestriction ms k v) k2 = lookupRestriction ms k2 := by
  induction ms with
  | nil => simp [setRestriction, lookupRestriction, Ne.symm h]
  | cons p rest ih =>
    by_cases hp : p.fst = k
    · simp [setRestriction, hp, lookupRestriction, Ne.symm h]
    · by_cases hp2 : p.fst = k2
      · simp [setRestriction, hp, lookupRestriction, hp2, h]
      · simp [setRestriction, hp, lookupRestriction, hp2, ih]

theorem findRestriction_set_self (ms : List (String × TargetRestriction))
    (k : String) (v : TargetRestriction) :
    findRestriction (setRestriction ms k v) k = v := by
  simp [findRestriction, lookupRestriction_set_self]

theorem findRestriction_set_other (ms : List (String × TargetRestriction))
    (k k2 : String) (v : TargetRestriction) (h : k2 ≠ k) :
    findRestriction (setRestriction ms k v) k2 = findRestriction ms k2 := by
  simp [findRestriction, lookupRestriction_set_other _ _ _ _ h]

theorem mem_setRestriction {ms : List (String × TargetRestriction)} {k : String}
    {v : TargetRestriction} {p : String × TargetRestriction}
    (hp : p ∈ setRestriction ms k v) : p = (k, v) ∨ p ∈ ms := by
  induction ms with
  | nil => simpa [setRestriction] using hp
  | cons q rest ih =>
    by_cases h : q.fst = k
    · simp only [setRestriction, h, if_pos rfl] at hp
      rcases List.mem_cons.mp hp with h1 | h2
      · exact Or.inl h1
      · exact Or.inr (List.mem_cons_of_mem _ h2)
    · simp only [setRestriction, h, if_neg h] at hp
      rcases List.mem_cons.mp hp with h1 | h2
      · exact Or.inr (h1 ▸ List.mem_cons_self _ _)
      · rcases ih h2 with h3 | h4
        · exact Or.inl h3
        · exact Or.inr (List.mem_cons_of_mem _ h4)

theorem lookupRestriction_mem {ms : List (String × TargetRestriction)} {k : String}
    {v : TargetRestriction} (h : lookupRestriction ms k = some v) : (k, v) ∈ ms := by
  induction ms with
  | nil => simp [lookupRestriction] at h
  | cons p rest ih =>
    by_cases hp : p.fst = k
    · simp only [lookupRestriction, if_pos hp] at h
      cases h
      rw [← hp]
      exact List.mem_cons_self _ _
    · simp only [lookupRestriction, if_neg hp] at h
      exact List.mem_cons_of_mem _ (ih h)

/-! ## Lemmas: UpdateStats per-method step -/

theorem findRestriction_step_other (success : Bool) (rt : Int) (now : Nat)
    (ms : List (String × TargetRestriction)) (rm k : String) (h : k ≠ rm) :
    findRestriction (updateStatsMethodStep success rt now ms rm) k =
      findRestriction ms k := by
  unfold updateStatsMethodStep
  exact findRestriction_set_other _ _ _ _ h

/-- Failure step on the method itself: the error counter increments and the
jail time becomes now plus the new error counter (JAIL_BASE = 1s). -/
theorem findRestriction_stepFail_self (rt : Int) (now : Nat)
    (ms : List (String × TargetRestriction)) (m : String) :
    (findRestriction (updateStatsMethodStep false rt now ms m) m).errCounter =
      (findRestriction ms m).errCounter + 1 ∧
    (findRestriction (updateStatsMethodStep false rt now ms m) m).jailExpireTime =
      (now : Int) + (((findRestriction ms m).errCounter : Int) + 1) ∧
    (findRestriction (updateStatsMethodStep false rt now ms m) m).successCounter = 0 := by
  unfold updateStatsMethodStep
  cases h : lookupRestriction ms m with
  | none =>
    simp only [h]
    rw [findRestriction_set_self]
    simp [findRestriction, h, targetJailTimeSec, TargetRestriction.zero]
  | some r =>
    simp only [h]
    rw [findRestriction_set_self]
    simp [findRestriction, h, targetJailTimeSec]

/-- Success step on the method itself: below the cap the streak increments
and the error counter is untouched; at the cap both counters reset. -/
theorem findRestriction_stepSucc_self (rt : Int) (now : Nat)
    (ms : List (String × TargetRestriction)) (m : String) :
    ((findRestriction ms m).successCounter < consecutiveSuccessResponses →
      (findRestriction (updateStatsMethodStep true rt now ms m) m).successCounter =
        (findRestriction ms m).successCounter + 1 ∧
      (findRestriction (updateStatsMethodStep true rt now ms m) m).errCounter =
        (findRestriction ms m).errCounter) ∧
    (¬ (findRestriction ms m).successCounter < consecutiveSuccessResponses →
      (findRestriction (updateStatsMethodStep true rt now ms m) m).successCounter = 0 ∧
      (findRestriction (updateStatsMethodStep true rt now ms m) m).errCounter = 0) := by
  unfold updateStatsMethodStep
  cases h : lookupRestriction ms m with
  | none =>
    constructor
    · intro _
      simp only [h]
      rw [findRestriction_set_self]
      simp [findRestriction, h, TargetRestriction.zero,
        TargetRestriction.addLastResponsesTimeMs, consecutiveSuccessResponses]
    · intro hge
      exact absurd (by simp [findRestriction, h, TargetRestriction.zero,
        consecutiveSuccessResponses]) hge
  | some r =>
    have hsc : (findRestriction ms m).successCounter = r.successCounter := by
      simp [findRestriction, h]
    have hec : (findRestriction ms m).errCounter = r.errCounter := by
      simp [findRestriction, h]
    have haddsc : (r.addLastResponsesTimeMs rt).successCounter = r.successCounter := by
      unfold TargetRestriction.addLastResponsesTimeMs
      dsimp only []
      split <;> rfl
    have haddec : (r.addLastResponsesTimeMs rt).errCounter = r.errCounter := by
      unfold TargetRestriction.addLastResponsesTimeMs
      dsimp only []
      split <;> rfl
    constructor
    · intro hlt
      rw [hsc] at hlt
      simp only [h]
      rw [findRestriction_set_self]
      simp [haddsc, haddec, hsc, hec, hlt]
    · intro hge
      rw [hsc] at hge
      simp only [h]
      rw [findRestriction_set_self]
      simp [haddsc, haddec, hge]

/-- Counter invariant of C2: every stored restriction has a success streak
of at most CONSECUTIVE_SUCCESS. -/
def CounterInv (ms : List (String × TargetRestriction)) : Prop :=
  ∀ p ∈ ms, p.snd.successCounter ≤ consecutiveSuccessResponses

theorem counterInv_findRestriction {ms : List (String × TargetRestriction)}
    (h : CounterInv ms) (k : String) :
    (findRestriction ms k).successCounter ≤ consecutiveSuccessResponses := by
  unfold findRestriction
  cases hl : lookupRestriction ms k with
  | none => simp [TargetRestriction.zero]
  | some v => simpa using h _ (lookupRestriction_mem hl)

theorem counterInv_set {ms : List (String × TargetRestriction)} {k : String}
    {v : TargetRestriction} (h : CounterInv ms)
    (hv : v.successCounter ≤ consecutiveSuccessResponses) :
    CounterInv (setRestriction ms k v) := by
  intro p hp
  rcases mem_setRestriction hp with h1 | h2
  · rw [h1]
    exact hv
  · exact h _ h2

theorem counterInv_step (success : Bool) (rt : Int) (now : Nat)
    {ms : List (String × TargetRestriction)} (h : CounterInv ms) (rm : String) :
    CounterInv (updateStatsMethodStep success rt now ms rm) := by
  unfold updateStatsMethodStep
  apply counterInv_set h
  set base :=
    (match lookupRestriction ms rm with
    | some r => if success then r.addLastResponsesTimeMs rt else r
    | none =>
      if !success then { TargetRestriction.zero with notAvailable := true }
      else { TargetRestriction.zero with lastResponsesTimeMs := [rt] }) with hbase
  by_cases hs : success = true
  · by_cases hlt : base.successCounter < consecutiveSuccessResponses
    · simp only [hs, hlt]
      simp
      omega
    · simp only [hs, hlt]
      simp
  · have hs2 : success = false := by
      cases success
      · rfl
      · exact absurd rfl hs
    simp [hs2]

theorem counterInv_markNotAvailable {ms : List (String × TargetRestriction)}
    (h : CounterInv ms) (payload : List String) :
    CounterInv (markNotAvailable ms payload) := by
  induction payload generalizing ms with
  | nil => exact h
  | cons m rest ih =>
    unfold markNotAvailable
    simp only [List.foldl_cons]
    apply ih
    apply counterInv_set h
    simpa using counterInv_findRestriction h m

theorem counterInv_foldSteps (success : Bool) (rt : Int) (now : Nat)
    {ms : List (String × TargetRestriction)} (h : CounterInv ms)
    (reqMethods : List String) :
    CounterInv (reqMethods.foldl (updateStatsMethodStep success rt now) ms) := by
  induction reqMethods generalizing ms with
  | nil => exact h
  | cons m rest ih =>
    simp only [List.foldl_cons]
    exact ih (counterInv_step success rt now h m)

/-- Counter invariant lifted to a whole target. -/
def TargetCounterInv (t : ProxyTargetState) : Prop :=
  CounterInv t.availableMethods

theorem targetCounterInv_updateStats (t : ProxyTargetState)
    (success : Bool) (reqMethods : List String) (responseTimeMs slotAmount : Int)
    (analyzeErr : Option AnalyzeError) (now : Nat) (h : TargetCounterInv t) :
    TargetCounterInv
      (UpdateStats t success reqMethods responseTimeMs slotAmount analyzeErr now) := by
  unfold UpdateStats
  by_cases hcfg : t.targetType = FromConfigTargetType
  · simpa [hcfg] using h
  · simp only [hcfg, if_neg hcfg]
    apply counterInv_foldSteps
    cases analyzeErr with
    | none =>
      by_cases hw : t.reqWindow < (getCurrentTimeWindow now).fst <;>
        by_cases hsl : slotAmount ≠ 0 <;> simpa [hw, hsl] using h
    | some ae =>
      by_cases hna : ae.isMethodNotAvailable <;>
        by_cases hw : t.reqWindow < (getCurrentTimeWindow now).fst <;>
          by_cases hsl : slotAmount ≠ 0 <;>
            simp [hw, hsl, hna] <;>
              first
              | exact counterInv_markNotAvailable h ae.payload
              | exact h

theorem targetCounterInv_newProxyTarget (u : URLWithMethods) (reqLimit : Nat)
    (partnerName targetType : String) :
    TargetCounterInv (newProxyTarget u reqLimit partnerName targetType) := by
  intro p hp
  unfold newProxyTarget at hp
  simp only [List.mem_map] at hp
  rcases hp with ⟨sm, _, hsm⟩
  rw [← hsm]
  simp [TargetRestriction.zero]

/-! ## Scenario fixtures -/

/-- Fresh non-config target used by the counter scenarios. -/
def freshPublicTarget : ProxyTargetState :=
  newProxyTarget
    { url := "u", supportedMethods := [], slotAmount := 0, isFullHistory := false }
    0 "p" "public_rpc"

/-- Iterated successful UpdateStats calls on one method. -/
def repeatSuccess (t : ProxyTargetState) : Nat → ProxyTargetState
  | 0 => t
  | n + 1 => UpdateStats (repeatSuccess t n) true ["getBalance"] 5 0 none 100

/-- Fresh target carrying the from-config target type. -/
def fromConfigTarget : ProxyTargetState :=
  newProxyTarget
    { url := "cfg", supportedMethods := [("getBalance", 3)], slotAmount := 0
      isFullHistory := false }
    0 "" FromConfigTargetType

/-! ## Claim C2 -/

/-- C2 (amended): for every updateStats call the success streak stays within
0 ≤ successStreak ≤ CONSECUTIVE_SUCCESS = 10 (it does reach 10), the
invariant holding from a freshly constructed target; ten successive
successful calls on one method starting from (errorCounter, successStreak)
= (0, 0) leave errorCounter = 0 and successStreak = 10; the pair resets to
(0, 0) on the eleventh consecutive successful call, that is on the success
after the streak has reached CONSECUTIVE_SUCCESS, not upon reaching it. -/
theorem C2_successStreak_bounded_and_selfReset :
    (∀ (t : ProxyTargetState) (success : Bool) (reqMethods : List String)
        (responseTimeMs slotAmount : Int) (analyzeErr : Option AnalyzeError)
        (now : Nat),
      TargetCounterInv t →
      TargetCounterInv
        (UpdateStats t success reqMethods responseTimeMs slotAmount analyzeErr now)) ∧
    (∀ (u : URLWithMethods) (reqLimit : Nat) (partnerName targetType : String),
      TargetCounterInv (newProxyTarget u reqLimit partnerName targetType)) ∧
    ((findRestriction (repeatSuccess freshPublicTarget 10).availableMethods
        "getBalance").errCounter = 0 ∧
     (findRestriction (repeatSuccess freshPublicTarget 10).availableMethods
        "getBalance").successCounter = consecutiveSuccessResponses) ∧
    ((findRestriction (repeatSuccess freshPublicTarget 11).availableMethods
        "getBalance").errCounter = 0 ∧
     (findRestriction (repeatSuccess freshPublicTarget 11).availableMethods
        "getBalance").successCounter = 0) := by
  refine ⟨targetCounterInv_updateStats, targetCounterInv_newProxyTarget, ?_, ?_⟩ <;>
    constructor <;> decide

/-- C2 witness: the invariant hypothesis of the preservation conjunct is
satisfiable, e.g. by the fresh target. -/
theorem C2_successStreak_bounded_and_selfReset_witness :
    TargetCounterInv freshPublicTarget ∧
    TargetCounterInv (UpdateStats freshPublicTarget true ["getBalance"] 5 0 none 100) :=
  ⟨by unfold TargetCounterInv CounterInv; decide,
   C2_successStreak_bounded_and_selfReset.1 freshPublicTarget true ["getBalance"]
     5 0 none 100 (by unfold TargetCounterInv CounterInv; decide)⟩

/-- C2 counterexample: after exactly ten successive successful updateStats
calls on a fresh target, the success streak equals 10, refuting both the
strict bound successStreak < CONSECUTIVE_SUCCESS and the claim that the
tenth success leaves the pair at (0, 0). -/
theorem C2_counterexample :
    ¬ ((findRestriction (repeatSuccess freshPublicTarget 10).availableMethods
        "getBalance").successCounter < consecutiveSuccessResponses) ∧
    (findRestriction (repeatSuccess freshPublicTarget 10).availableMethods
        "getBalance").successCounter ≠ 0 := by
  constructor <;> decide

/-! ## Lemmas: balancer construction and scanning (C3) -/

theorem length_cumulativeOf (acc : Rat) (ws : List Rat) :
    (cumulativeOf acc ws).length = ws.length := by
  induction ws generalizing acc with
  | nil => rfl
  | cons w rest ih => simp [cumulativeOf, ih]

theorem cumulativeOf_getLast? (acc : Rat) (ws : List Rat) (h : ws ≠ []) :
    (cumulativeOf acc ws).getLast? = some (acc + ws.sum) := by
  induction ws generalizing acc with
  | nil => exact absurd rfl h
  | cons w rest ih =>
    cases rest with
    | nil => simp [cumulativeOf]
    | cons w2 rest2 =>
      rw [show cumulativeOf acc (w :: w2 :: rest2) =
        (acc + w) :: cumulativeOf (acc + w) (w2 :: rest2) from rfl]
      rw [show cumulativeOf (acc + w) (w2 :: rest2) =
        (acc + w + w2) :: cumulativeOf (acc + w + w2) rest2 from rfl]
      rw [List.getLast?_cons_cons]
      rw [show (acc + w + w2) :: cumulativeOf (acc + w + w2) rest2 =
        cumulativeOf (acc + w) (w2 :: rest2) from rfl]
      rw [ih (acc + w) (by simp)]
      simp [List.sum_cons]
      ring

theorem sum_map_div (ws : List Rat) (c : Rat) :
    (ws.map (fun w => w / c)).sum = ws.sum / c := by
  induction ws with
  | nil => simp
  | cons w rest ih => simp [ih, add_div]

/-- Facts extracted from a successful balancer construction. -/
theorem newProbabilisticBalancer_ok {T : Type} {ts : List T} {ws : List Rat}
    {p : ProbabilisticBalancer T} (h : NewProbabilisticBalancer ts ws = .ok p) :
    p.targets = ts ∧ p.weights = ws.map (fun w => w / ws.sum) ∧
    p.cumulativeWeights = cumulativeOf 0 p.weights ∧
    ts ≠ [] ∧ ws.length = ts.length ∧ ws.sum ≠ 0 := by
  unfold NewProbabilisticBalancer at h
  by_cases h1 : ts.length ≠ ws.length
  · rw [if_pos h1] at h
    simp at h
  · rw [if_neg h1] at h
    by_cases h2 : ts.length = 0
    · rw [if_pos h2] at h
      simp at h
    · rw [if_neg h2] at h
      by_cases h3 : ws.any (fun w => w < 0)
      · rw [if_pos h3] at h
        simp at h
      · rw [if_neg h3] at h
        dsimp only at h
        by_cases h4 : ws.sum = 0
        · rw [if_pos h4] at h
          simp at h
        · rw [if_neg h4] at h
          cases h
          refine ⟨rfl, rfl, rfl, ?_, ?_, h4⟩
          · intro hnil
            rw [hnil] at h2
            exact h2 rfl
          · omega

theorem normalized_sum_one {ws : List Rat} (h : ws.sum ≠ 0) :
    (ws.map (fun w => w / ws.sum)).sum = 1 := by
  rw [sum_map_div]
  exact div_self h

theorem findCumIdx_bounds (u : Rat) (cum : List Rat) (i0 i : Nat)
    (h : findCumIdx u cum i0 = some i) : i0 ≤ i ∧ i < i0 + cum.length := by
  induction cum generalizing i0 with
  | nil => simp [findCumIdx] at h
  | cons c rest ih =>
    unfold findCumIdx at h
    by_cases hc : u ≤ c
    · simp only [if_pos hc] at h
      cases h
      simp
    · simp only [if_neg hc] at h
      rcases ih _ h with ⟨hl, hr⟩
      constructor
      · omega
      · simp only [List.length_cons]
        omega

theorem findCumIdx_isSome (u : Rat) (cum : List Rat) (i0 : Nat)
    (h : ∃ c ∈ cum, u ≤ c) : ∃ i, findCumIdx u cum i0 = some i := by
  induction cum generalizing i0 with
  | nil => simp at h
  | cons c rest ih =>
    unfold findCumIdx
    by_cases hc : u ≤ c
    · exact ⟨i0, by simp [hc]⟩
    · rcases h with ⟨c2, hc2, hu⟩
      rcases List.mem_cons.mp hc2 with h1 | h2
      · exact absurd (h1 ▸ hu) hc
      · simpa [hc] using ih (i0 + 1) ⟨c2, h2, hu⟩

theorem pickFiltered_mem (filtered : List Nat) (cumW : List Rat) (rv : Rat)
    (fb : Nat) :
    pickFiltered filtered cumW rv fb ∈ filtered ∨ pickFiltered filtered cumW rv fb = fb := by
  induction filtered generalizing cumW fb with
  | nil =>
    right
    cases cumW <;> rfl
  | cons i f ih =>
    cases cumW with
    | nil => right; rfl
    | cons c cr =>
      unfold pickFiltered
      by_cases hc : rv ≤ c
      · left
        simp [hc]
      · simp only [if_neg hc]
        rcases ih cr i with h1 | h2
        · left
          exact List.mem_cons_of_mem _ h1
        · left
          rw [h2]
          exact List.mem_cons_self _ _

/-- Specification of the exclusion scan of GetNext: over a strictly sorted
exclusion list and a pointer invariant, the filtered indices are exactly the
in-range indices that are not excluded. -/
theorem mem_buildFiltered (ex : List Nat) (hsorted : List.Sorted (· < ·) ex) :
    ∀ (ws : List Rat) (i exIdx : Nat) (acc : Rat),
      (∀ (j v : Nat), ex.get? j = some v → (j < exIdx → v < i) ∧ (exIdx ≤ j → i ≤ v)) →
      ∀ k, k ∈ (buildFiltered ex ws i exIdx acc).fst ↔
        (i ≤ k ∧ k < i + ws.length ∧ k ∉ ex) := by
  intro ws
  induction ws with
  | nil =>
    intro i exIdx acc _ k
    constructor
    · intro hk
      simp [buildFiltered] at hk
    · rintro ⟨h1, h2, _⟩
      simp only [List.length_nil, Nat.add_zero] at h2
      omega
  | cons w ws2 ih =>
    intro i exIdx acc hinv k
    by_cases hskip : ex.get? exIdx = some i
    · have hmemi : i ∈ ex := List.get?_mem hskip
      have hlenEx : exIdx < ex.length := by
        by_contra hcon
        rw [List.get?_eq_none.mpr (by omega)] at hskip
        cases hskip
      have hinv2 : ∀ (j v : Nat), ex.get? j = some v →
          (j < exIdx + 1 → v < i + 1) ∧ (exIdx + 1 ≤ j → i + 1 ≤ v) := by
        intro j v hj
        constructor
        · intro hji
          by_cases hje : j < exIdx
          · have := (hinv j v hj).1 hje
            omega
          · have hje2 : j = exIdx := by omega
            rw [hje2] at hj
            rw [hskip] at hj
            cases hj
            omega
        · intro hj1
          have hjlen : j < ex.length := by
            by_contra hcon
            rw [List.get?_eq_none.mpr (by omega)] at hj
            cases hj
          have hrel : ex.get ⟨exIdx, hlenEx⟩ < ex.get ⟨j, hjlen⟩ :=
            List.pairwise_iff_get.mp hsorted ⟨exIdx, hlenEx⟩ ⟨j, hjlen⟩
              (by simp only [Fin.mk_lt_mk]; omega)
          have hvi : ex.get ⟨exIdx, hlenEx⟩ = i := by
            rw [List.get?_eq_get hlenEx] at hskip
            cases hskip
            rfl
          have hvj : ex.get ⟨j, hjlen⟩ = v := by
            rw [List.get?_eq_get hjlen] at hj
            cases hj
            rfl
          rw [hvi, hvj] at hrel
          omega
      have hIH := ih (i + 1) (exIdx + 1) acc hinv2
      have hstep : buildFiltered ex (w :: ws2) i exIdx acc =
          buildFiltered ex ws2 (i + 1) (exIdx + 1) acc := by
        conv_lhs => unfold buildFiltered
        rw [if_pos hskip]
      rw [hstep, hIH k]
      constructor
      · rintro ⟨h1, h2, h3⟩
        refine ⟨by omega, ?_, h3⟩
        simp only [List.length_cons]
        omega
      · rintro ⟨h1, h2, h3⟩
        have hki : k ≠ i := fun he => h3 (he ▸ hmemi)
        refine ⟨by omega, ?_, h3⟩
        simp only [List.length_cons] at h2
        omega
    · have hiNot : i ∉ ex := by
        intro hmem
        rcases List.mem_iff_get?.mp hmem with ⟨j, hj⟩
        by_cases hje : j < exIdx
        · have := (hinv j i hj).1 hje
          omega
        · by_cases hje2 : j = exIdx
          · rw [hje2] at hj
            exact hskip hj
          · have hjlen : j < ex.length := by
              by_contra hcon
              rw [List.get?_eq_none.mpr (by omega)] at hj
              cases hj
            have hlenEx : exIdx < ex.length := by omega
            have hrel : ex.get ⟨exIdx, hlenEx⟩ < ex.get ⟨j, hjlen⟩ :=
              List.pairwise_iff_get.mp hsorted ⟨exIdx, hlenEx⟩ ⟨j, hjlen⟩
                (by simp only [Fin.mk_lt_mk]; omega)
            have hvj : ex.get ⟨j, hjlen⟩ = i := by
              rw [List.get?_eq_get hjlen] at hj
              cases hj
              rfl
            have hge : i ≤ ex.get ⟨exIdx, hlenEx⟩ :=
              (hinv exIdx _ (List.get?_eq_get hlenEx)).2 (le_refl _)
            omega
      have hinv2 : ∀ (j v : Nat), ex.get? j = some v →
          (j < exIdx → v < i + 1) ∧ (exIdx ≤ j → i + 1 ≤ v) := by
        intro j v hj
        constructor
        · intro hji
          have := (hinv j v hj).1 hji
          omega
        · intro hji
          have h1 := (hinv j v hj).2 hji
          have hvne : v ≠ i := by
            intro he
            exact hiNot (he ▸ List.get?_mem hj)
          omega
      have hIH := ih (i + 1) exIdx (acc + w) hinv2
      have hstep : buildFiltered ex (w :: ws2) i exIdx acc =
          (i :: (buildFiltered ex ws2 (i + 1) exIdx (acc + w)).fst,
           (acc + w) :: (buildFiltered ex ws2 (i + 1) exIdx (acc + w)).snd.fst,
           (buildFiltered ex ws2 (i + 1) exIdx (acc + w)).snd.snd) := by
        conv_lhs => unfold buildFiltered
        rw [if_neg hskip]
      rw [hstep]
      simp only [List.mem_cons]
      constructor
      · rintro (rfl | hk)
        · refine ⟨le_refl _, ?_, hiNot⟩
          simp only [List.length_cons]
          omega
        · rcases (hIH k).mp hk with ⟨h1, h2, h3⟩
          refine ⟨by omega, ?_, h3⟩
          simp only [List.length_cons]
          omega
      · rintro ⟨h1, h2, h3⟩
        by_cases hk : k = i
        · exact Or.inl hk
        · refine Or.inr ((hIH k).mpr ⟨by omega, ?_, h3⟩)
          simp only [List.length_cons] at h2
          omega

theorem mem_of_getLast?_eq {l : List Rat} {a : Rat} (h : l.getLast? = some a) :
    a ∈ l := by
  have hne : l ≠ [] := by
    intro he
    rw [he] at h
    cases h
  rw [List.getLast?_eq_getLast_of_ne_nil hne] at h
  cases h
  exact List.getLast_mem hne

/-- Full contract of GetNext for a balancer obtained from a successful
construction: a returned index is in range and never excluded, an error is
returned exactly when every in-range index is excluded, and that error is
the all-targets-excluded one. -/
theorem getNext_spec {T : Type} (ts : List T) (ws : List Rat)
    (p : ProbabilisticBalancer T) (exclude : List Nat) (u : Rat)
    (hok : NewProbabilisticBalancer ts ws = .ok p)
    (hnodup : exclude.Nodup) (hu1 : u < 1) :
    (∀ t i, p.GetNext exclude u = .ok (t, i) → i < ts.length ∧ i ∉ exclude) ∧
    ((∃ e, p.GetNext exclude u = .error e) ↔ ∀ i < ts.length, i ∈ exclude) ∧
    (∀ e, p.GetNext exclude u = .error e → e = BalancerError.allExcluded) := by
  obtain ⟨hpt, hpw, hpc, hne, hlen, hsum⟩ := newProbabilisticBalancer_ok hok
  have hwlen : p.weights.length = ts.length := by
    rw [hpw, List.length_map, hlen]
  have hclen : p.cumulativeWeights.length = ts.length := by
    rw [hpc, length_cumulativeOf, hwlen]
  have htlen0 : ¬ p.targets.length = 0 := by
    rw [hpt]
    intro h0
    exact hne (List.length_eq_zero.mp h0)
  have htpos : 0 < ts.length := by
    rw [hpt] at htlen0
    omega
  unfold ProbabilisticBalancer.GetNext
  rw [if_neg htlen0]
  by_cases hex : exclude.length = 0
  · have hexnil : exclude = [] := List.length_eq_zero.mp hex
    rw [if_pos hex]
    have hwne : p.weights ≠ [] := by
      intro h0
      rw [h0] at hwlen
      simp at hwlen
      omega
    have hlast : p.cumulativeWeights.getLast? = some 1 := by
      rw [hpc, cumulativeOf_getLast? _ _ hwne, hpw, normalized_sum_one hsum]
      norm_num
    have hexist : ∃ c ∈ p.cumulativeWeights, u ≤ c :=
      ⟨1, mem_of_getLast?_eq hlast, le_of_lt hu1⟩
    obtain ⟨i, hfind⟩ := findCumIdx_isSome u p.cumulativeWeights 0 hexist
    rw [hfind]
    dsimp only
    obtain ⟨_, hibound⟩ := findCumIdx_bounds u _ 0 i hfind
    have hilt : i < p.targets.length := by
      rw [hpt]
      rw [hclen] at hibound
      omega
    have hget : p.targets.get? i = some (p.targets.get ⟨i, hilt⟩) :=
      List.get?_eq_get hilt
    rw [hget]
    dsimp only
    refine ⟨?_, ?_, ?_⟩
    · intro t2 i2 h2
      rw [Except.ok.injEq, Prod.mk.injEq] at h2
      rw [← h2.2]
      rw [hpt] at hilt
      exact ⟨hilt, by simp [hexnil]⟩
    · constructor
      · rintro ⟨e, he⟩
        cases he
      · intro hall
        exact absurd (hall 0 htpos) (by simp [hexnil])
    · intro e he
      cases he
  · rw [if_neg hex]
    dsimp only
    have hperm := List.perm_insertionSort (· ≤ ·) exclude
    have hsorted : List.Sorted (· < ·) (exclude.insertionSort (· ≤ ·)) :=
      List.Sorted.lt_of_le (List.sorted_insertionSort _ _) (hperm.nodup_iff.mpr hnodup)
    have hinv0 : ∀ (j v : Nat), (exclude.insertionSort (· ≤ ·)).get? j = some v →
        (j < 0 → v < 0) ∧ (0 ≤ j → 0 ≤ v) := by
      intro j v _
      exact ⟨fun h => absurd h (by omega), fun _ => Nat.zero_le _⟩
    have hmem := mem_buildFiltered (exclude.insertionSort (· ≤ ·)) hsorted
      p.weights 0 0 0 hinv0
    have hmem2 : ∀ k, k ∈ (buildFiltered (exclude.insertionSort (· ≤ ·))
        p.weights 0 0 0).fst ↔ (k < ts.length ∧ k ∉ exclude) := by
      intro k
      rw [hmem k, hperm.mem_iff, hwlen]
      constructor
      · rintro ⟨_, h2, h3⟩
        exact ⟨by omega, h3⟩
      · rintro ⟨h2, h3⟩
        exact ⟨Nat.zero_le _, by omega, h3⟩
    cases hfilt : (buildFiltered (exclude.insertionSort (· ≤ ·)) p.weights 0 0 0).fst with
    | nil =>
      dsimp only
      refine ⟨?_, ?_, ?_⟩
      · intro t2 i2 h2
        cases h2
      · constructor
        · intro _
          intro i hi
          have := (hmem2 i).mpr
          rw [hfilt] at this
          by_contra hnotmem
          exact absurd (this ⟨hi, hnotmem⟩) (List.not_mem_nil i)
        · intro _
          exact ⟨_, rfl⟩
      · intro e he
        rw [Except.error.injEq] at he
        exact he.symm
    | cons i0 tl =>
      have hi0 : i0 < ts.length ∧ i0 ∉ exclude :=
        (hmem2 i0).mp (by rw [hfilt]; exact List.mem_cons_self _ _)
      have hnoerr : ¬ ∀ i < ts.length, i ∈ exclude := by
        intro hall
        exact hi0.2 (hall i0 hi0.1)
      dsimp only
      by_cases hzero : (buildFiltered (exclude.insertionSort (· ≤ ·))
          p.weights 0 0 0).snd.snd = 0
      · rw [if_pos hzero]
        have hget : p.targets.get? i0 = some (p.targets.get ⟨i0, by rw [hpt]; exact hi0.1⟩) :=
          List.get?_eq_get _
        rw [hget]
        dsimp only
        refine ⟨?_, ?_, ?_⟩
        · intro t2 i2 h2
          rw [Except.ok.injEq, Prod.mk.injEq] at h2
          rw [← h2.2]
          exact hi0
        · constructor
          · rintro ⟨e, he⟩
            cases he
          · intro hall
            exact absurd hall hnoerr
        · intro e he
          cases he
      · rw [if_neg hzero]
        have hsel : pickFiltered (i0 :: tl)
            (buildFiltered (exclude.insertionSort (· ≤ ·)) p.weights 0 0 0).snd.fst
            (u * (buildFiltered (exclude.insertionSort (· ≤ ·)) p.weights 0 0 0).snd.snd)
            i0 ∈ i0 :: tl := by
          rcases pickFiltered_mem (i0 :: tl) _ _ i0 with h1 | h2
          · exact h1
          · rw [h2]
            exact List.mem_cons_self _ _
        have hselSpec : pickFiltered (i0 :: tl)
            (buildFiltered (exclude.insertionSort (· ≤ ·)) p.weights 0 0 0).snd.fst
            (u * (buildFiltered (exclude.insertionSort (· ≤ ·)) p.weights 0 0 0).snd.snd)
            i0 < ts.length ∧ pickFiltered (i0 :: tl)
            (buildFiltered (exclude.insertionSort (· ≤ ·)) p.weights 0 0 0).snd.fst
            (u * (buildFiltered (exclude.insertionSort (· ≤ ·)) p.weights 0 0 0).snd.snd)
            i0 ∉ exclude := by
          apply (hmem2 _).mp
          rw [hfilt]
          exact hsel
        have hget : p.targets.get? (pickFiltered (i0 :: tl)
            (buildFiltered (exclude.insertionSort (· ≤ ·)) p.weights 0 0 0).snd.fst
            (u * (buildFiltered (exclude.insertionSort (· ≤ ·)) p.weights 0 0 0).snd.snd)
            i0) = some (p.targets.get ⟨_, by rw [hpt]; exact hselSpec.1⟩) :=
          List.get?_eq_get _
        rw [hget]
        dsimp only
        refine ⟨?_, ?_, ?_⟩
        · intro t2 i2 h2
          rw [Except.ok.injEq, Prod.mk.injEq] at h2
          rw [← h2.2]
          exact hselSpec
        · constructor
          · rintro ⟨e, he⟩
            cases he
          · intro hall
            exact absurd hall hnoerr
        · intro e he
          cases he

/-! ## Claim C3 -/

/-- C3: for every weighted selector built from a non-empty target list by
NewProbabilisticBalancer and every duplicate-free exclusion set, GetNext
never returns an excluded index, it returns an error exactly when every
index is excluded (and that error is AllExcluded), and construction from an
empty target list, or GetNext on a selector with no targets, yields the
NoTargets error. -/
theorem C3_weighted_selector_exclusion_contract {T : Type} :
    (∀ (targets : List T) (weights : List Rat) (p : ProbabilisticBalancer T)
        (exclude : List Nat) (u : Rat),
      NewProbabilisticBalancer targets weights = .ok p →
      exclude.Nodup → u < 1 →
      (∀ t i, p.GetNext exclude u = .ok (t, i) → i < targets.length ∧ i ∉ exclude) ∧
      ((∃ e, p.GetNext exclude u = .error e) ↔ ∀ i < targets.length, i ∈ exclude) ∧
      (∀ e, p.GetNext exclude u = .error e → e = BalancerError.allExcluded)) ∧
    (NewProbabilisticBalancer ([] : List T) [] = .error BalancerError.noTargets) ∧
    (∀ (p : ProbabilisticBalancer T) (exclude : List Nat) (u : Rat),
      p.targets = [] → p.GetNext exclude u = .error BalancerError.noTargets) := by
  refine ⟨fun ts ws p ex u hok hnd hu => getNext_spec ts ws p ex u hok hnd hu, ?_, ?_⟩
  · rfl
  · intro p ex u hnil
    unfold ProbabilisticBalancer.GetNext
    rw [if_pos (by rw [hnil]; rfl)]

/-- Concrete two-target balancer with weights 1 and 3 used by the C3
witness. -/
def sampleBalancer : ProbabilisticBalancer String :=
  { targets := ["a", "b"], weights := [1 / 4, 3 / 4]
    cumulativeWeights := [1 / 4, 1] }

/-- C3 witness: the contract instantiated at a concrete selector, a
duplicate-free exclusion list and the draw one half. -/
theorem C3_weighted_selector_exclusion_contract_witness :
    NewProbabilisticBalancer (["a", "b"] : List String) [1, 3] = .ok sampleBalancer ∧
    (∀ t i, sampleBalancer.GetNext [0, 1] (1 / 2) = .ok (t, i) →
      i < 2 ∧ i ∉ ([0, 1] : List Nat)) ∧
    ((∃ e, sampleBalancer.GetNext [0, 1] (1 / 2) = .error e) ↔
      ∀ i < 2, i ∈ ([0, 1] : List Nat)) :=
  ⟨by norm_num [NewProbabilisticBalancer, sampleBalancer, cumulativeOf],
   (C3_weighted_selector_exclusion_contract.1 ["a", "b"] [1, 3] sampleBalancer
     [0, 1] (1 / 2) (by norm_num [NewProbabilisticBalancer, sampleBalancer, cumulativeOf])
     (by decide) (by norm_num)).1,
   (C3_weighted_selector_exclusion_contract.1 ["a", "b"] [1, 3] sampleBalancer
     [0, 1] (1 / 2) (by norm_num [NewProbabilisticBalancer, sampleBalancer, cumulativeOf])
     (by decide) (by norm_num)).2.1⟩

/-! ## Lemmas for the jail bound (C4) -/

theorem findRestriction_markNotAvailable_counters
    (payload : List String) (ms : List (String × TargetRestriction)) (m : String) :
    (findRestriction (markNotAvailable ms payload) m).errCounter =
      (findRestriction ms m).errCounter := by
  induction payload generalizing ms with
  | nil => rfl
  | cons q rest ih =>
    unfold markNotAvailable
    simp only [List.foldl_cons]
    rw [show (List.foldl _ _ rest) = markNotAvailable
      (setRestriction ms q { findRestriction ms q with notAvailable := true }) rest
      from rfl]
    rw [ih]
    by_cases h : m = q
    · rw [h, findRestriction_set_self]
    · rw [findRestriction_set_other _ _ _ _ h]

/-- Once the error counter is at least B and the jail reaches now + B + 1,
further failure steps keep both bounds. -/
theorem failFold_bound (rt : Int) (now : Nat) (l : List String) (m : String)
    (B : Nat) (ms : List (String × TargetRestriction))
    (hec : B ≤ (findRestriction ms m).errCounter)
    (hjail : (now : Int) + ((B : Int) + 1) ≤ (findRestriction ms m).jailExpireTime) :
    B ≤ (findRestriction (l.foldl (updateStatsMethodStep false rt now) ms) m).errCounter ∧
    (now : Int) + ((B : Int) + 1) ≤
      (findRestriction (l.foldl (updateStatsMethodStep false rt now) ms) m).jailExpireTime := by
  induction l generalizing ms with
  | nil => exact ⟨hec, hjail⟩
  | cons a rest ih =>
    simp only [List.foldl_cons]
    by_cases ha : m = a
    · subst ha
      rcases findRestriction_stepFail_self rt now ms m with ⟨he, hj, _⟩
      exact ih (updateStatsMethodStep false rt now ms m)
        (by rw [he]; omega)
        (by rw [hj]; omega)
    · exact ih (updateStatsMethodStep false rt now ms a)
        (by rw [findRestriction_step_other _ _ _ _ _ _ ha]; exact hec)
        (by rw [findRestriction_step_other _ _ _ _ _ _ ha]; exact hjail)

/-- After a failure fold containing the method m, its jail time is at least
now plus the pre-fold error counter plus one second. -/
theorem jail_after_failFold (rt : Int) (now : Nat) (l : List String) (m : String)
    (hm : m ∈ l) (ms : List (String × TargetRestriction)) :
    (now : Int) + (((findRestriction ms m).errCounter : Int) + 1) ≤
      (findRestriction (l.foldl (updateStatsMethodStep false rt now) ms) m).jailExpireTime := by
  induction l generalizing ms with
  | nil => cases hm
  | cons a rest ih =>
    simp only [List.foldl_cons]
    by_cases ha : m = a
    · subst ha
      rcases findRestriction_stepFail_self rt now ms m with ⟨he, hj, _⟩
      have := failFold_bound rt now rest m
        ((findRestriction ms m).errCounter)
        (updateStatsMethodStep false rt now ms m)
        (by rw [he]; exact Nat.le_succ _)
        (by rw [hj])
      exact this.2
    · have hm2 : m ∈ rest := by
        rcases List.mem_cons.mp hm with h1 | h2
        · exact absurd h1 ha
        · exact h2
      have := ih hm2 (updateStatsMethodStep false rt now ms a)
      rw [findRestriction_step_other _ _ _ _ _ _ ha] at this
      exact this

/-- Shape of the available-methods map after a non-config UpdateStats. -/
theorem updateStats_availableMethods (t : ProxyTargetState) (success : Bool)
    (reqMethods : List String) (responseTimeMs slotAmount : Int)
    (analyzeErr : Option AnalyzeError) (now : Nat)
    (hty : ¬ t.targetType = FromConfigTargetType) :
    (UpdateStats t success reqMethods responseTimeMs slotAmount analyzeErr now).availableMethods =
      reqMethods.foldl (updateStatsMethodStep success responseTimeMs now)
        (match analyzeErr with
         | some ae =>
           if ae.isMethodNotAvailable then markNotAvailable t.availableMethods ae.payload
           else t.availableMethods
         | none => t.availableMethods) := by
  unfold UpdateStats
  cases analyzeErr with
  | none =>
    by_cases hw : t.reqWindow < (getCurrentTimeWindow now).fst <;>
      by_cases hsl : slotAmount ≠ 0 <;> simp [hty, hw, hsl]
  | some ae =>
    by_cases hna : ae.isMethodNotAvailable <;>
      by_cases hw : t.reqWindow < (getCurrentTimeWindow now).fst <;>
        by_cases hsl : slotAmount ≠ 0 <;> simp [hty, hw, hsl, hna]

/-! ## Lemmas for jailed ineligibility (C4) -/

theorem isAvailableLoop_false_of_jailed (t : ProxyTargetState)
    (containScannedMethods : Bool) (reqType : TokenType) (mainnetSlot : Int)
    (getSlotTimeUnix : Int) (isFailover : Bool) (reqBlock : Int) (timeNow : Int)
    (m : String)
    (hj : timeNow < (findRestriction t.availableMethods m).jailExpireTime) :
    ∀ (l : List String) (acc : Nat × Int), m ∈ l →
      (isAvailableLoop t containScannedMethods reqType mainnetSlot getSlotTimeUnix
        isFailover reqBlock timeNow acc l).fst = false := by
  intro l
  induction l with
  | nil => intro acc hm; cases hm
  | cons a rest ih =>
    intro acc hm
    unfold isAvailableLoop
    by_cases hstep : (isAvailableMethodStep t containScannedMethods reqType mainnetSlot
        getSlotTimeUnix isFailover reqBlock timeNow acc a).fst = true
    · simp only [hstep, if_pos rfl]
      by_cases ha : m = a
      · exfalso
        subst ha
        unfold isAvailableMethodStep at hstep
        by_cases hna : (findRestriction t.availableMethods m).notAvailable <;>
          simp [hna, hj] at hstep
      · have hm2 : m ∈ rest := by
          rcases List.mem_cons.mp hm with h1 | h2
          · exact absurd h1 ha
          · exact h2
        exact ih _ hm2
    · simp only [hstep]
      simp only [Bool.not_eq_true] at hstep
      simp [hstep]

theorem isAvailable_false_of_jailed (t : ProxyTargetState) (reqMethods : List String)
    (containScannedMethods : Bool) (reqType : TokenType) (mainnetSlot : Int)
    (getSlotTimeUnix : Int) (isFailover : Bool) (reqBlock : Int) (now2 : Nat)
    (m : String) (hm : m ∈ reqMethods)
    (hj : ((now2 : Nat) : Int) < (findRestriction t.availableMethods m).jailExpireTime) :
    (isAvailable t reqMethods containScannedMethods reqType mainnetSlot
      getSlotTimeUnix isFailover reqBlock now2).isAvailable = false := by
  unfold isAvailable
  by_cases hAlive : t.isAlive
  · by_cases hLimit : 0 < t.reqLimit ∧ (getCurrentTimeWindow now2).fst = t.reqWindow ∧
        t.reqLimit ≤ t.reqCounter
    · simp [hAlive, hLimit]
    · simp only [hAlive, Bool.not_true, Bool.false_eq_true, if_false, hLimit, if_neg hLimit]
      exact isAvailableLoop_false_of_jailed t containScannedMethods reqType mainnetSlot
        getSlotTimeUnix isFailover reqBlock _ m (by exact_mod_cast hj) reqMethods (0, 0) hm
  · simp [hAlive]

/-! ## Claim C4 -/

/-- C4 (amended): for every target whose targetType is not the from-config
type, every method m and every failure update whose pre-call errorCounter
for m is k, UpdateStats sets the jail time of m to at least now + (k + 1)
seconds; and for every target, eligibility over a method list containing m
returns false at every instant strictly before the jail expiry. -/
theorem C4_failure_jail_and_ineligibility :
    (∀ (t : ProxyTargetState) (reqMethods : List String)
        (responseTimeMs slotAmount : Int) (analyzeErr : Option AnalyzeError)
        (now : Nat) (m : String), m ∈ reqMethods →
        ¬ t.targetType = FromConfigTargetType →
      (now : Int) + (((findRestriction t.availableMethods m).errCounter : Int) + 1) ≤
        (findRestriction
          (UpdateStats t false reqMethods responseTimeMs slotAmount analyzeErr
            now).availableMethods m).jailExpireTime) ∧
    (∀ (t : ProxyTargetState) (reqMethods : List String)
        (containScannedMethods : Bool) (reqType : TokenType) (mainnetSlot : Int)
        (getSlotTimeUnix : Int) (isFailover : Bool) (reqBlock : Int) (now2 : Nat)
        (m : String), m ∈ reqMethods →
        ((now2 : Nat) : Int) < (findRestriction t.availableMethods m).jailExpireTime →
      (isAvailable t reqMethods containScannedMethods reqType mainnetSlot
        getSlotTimeUnix isFailover reqBlock now2).isAvailable = false) := by
  constructor
  · intro t reqMethods responseTimeMs slotAmount analyzeErr now m hm hty
    rw [updateStats_availableMethods t false reqMethods responseTimeMs slotAmount
      analyzeErr now hty]
    cases analyzeErr with
    | none => exact jail_after_failFold _ _ _ _ hm _
    | some ae =>
      by_cases hna : ae.isMethodNotAvailable
      · simp only [hna, if_pos hna]
        have := jail_after_failFold responseTimeMs now reqMethods m hm
          (markNotAvailable t.availableMethods ae.payload)
        rw [findRestriction_markNotAvailable_counters] at this
        exact this
      · simp only [hna, if_neg hna]
        exact jail_after_failFold _ _ _ _ hm _
  · exact isAvailable_false_of_jailed

/-- C4 witness: a concrete failure update on a fresh target jails the method
to now + 1 and the jailed target is ineligible one second later. -/
theorem C4_failure_jail_and_ineligibility_witness :
    (("getBalance" ∈ (["getBalance"] : List String)) ∧
      (100 : Int) + (((findRestriction freshPublicTarget.availableMethods
        "getBalance").errCounter : Int) + 1) ≤
        (findRestriction (UpdateStats freshPublicTarget false ["getBalance"] 5 0 none
          100).availableMethods "getBalance").jailExpireTime) ∧
    (((100 : Nat) : Int) <
        (findRestriction (UpdateStats freshPublicTarget false ["getBalance"] 5 0 none
          100).availableMethods "getBalance").jailExpireTime ∧
      (isAvailable (UpdateStats freshPublicTarget false ["getBalance"] 5 0 none 100)
        ["getBalance"] false TokenType.defaultToken 0 0 false 0 100).isAvailable = false) :=
  ⟨⟨by decide,
    C4_failure_jail_and_ineligibility.1 freshPublicTarget ["getBalance"] 5 0 none 100
      "getBalance" (by decide) (by decide)⟩,
   ⟨by decide,
    C4_failure_jail_and_ineligibility.2 _ ["getBalance"] false TokenType.defaultToken
      0 0 false 0 100 "getBalance" (by decide) (by decide)⟩⟩

/-- C4 counterexample: for a from-config target the claim as stated fails:
a failure update leaves the jail time at zero, below now + (k + 1). -/
theorem C4_counterexample :
    ¬ ((100 : Int) + (((findRestriction fromConfigTarget.availableMethods
        "getBalance").errCounter : Int) + 1) ≤
      (findRestriction (UpdateStats fromConfigTarget false ["getBalance"] 5 0 none
        100).availableMethods "getBalance").jailExpireTime) := by
  decide

/-! ## Claim C10 -/

/-- C10: UpdateStats on a target whose targetType is the from-config target
type is a no-op: the whole state, including the request window, request
counter, slot amount and every per-method restriction, is returned
unchanged. -/
theorem C10_fromConfig_updateStats_noop (t : ProxyTargetState) (success : Bool)
    (reqMethods : List String) (responseTimeMs slotAmount : Int)
    (analyzeErr : Option AnalyzeError) (now : Nat)
    (h : t.targetType = FromConfigTargetType) :
    UpdateStats t success reqMethods responseTimeMs slotAmount analyzeErr now = t := by
  unfold UpdateStats
  simp [h]

/-- C10 witness: a concrete from-config target is untouched by a failure
update. -/
theorem C10_fromConfig_updateStats_noop_witness :
    fromConfigTarget.targetType = FromConfigTargetType ∧
    UpdateStats fromConfigTarget false ["getBalance"] 5 7 none 123 = fromConfigTarget :=
  ⟨rfl, C10_fromConfig_updateStats_noop fromConfigTarget false ["getBalance"] 5 7 none
    123 rfl⟩

/-! ## Dispatcher scenario fixtures -/

/-- Targets of the dispatcher scenarios. -/
def targetA : TargetRef := { url := "u1", provider := "p1" }

def targetB : TargetRef := { url := "u2", provider := "p2" }

def singleBalancer : ProbabilisticBalancer TargetRef :=
  { targets := [targetA], weights := [1], cumulativeWeights := [1] }

def pairBalancer : ProbabilisticBalancer TargetRef :=
  { targets := [targetA, targetB], weights := [1 / 2, 1 / 2]
    cumulativeWeights := [1 / 2, 1] }

/-- Router mapping getAccountInfo to the single target. -/
def accountRouter : MethodBasedRouter :=
  { methodMap :=
      [("getAccountInfo",
        { targets := [targetA], weights := [1], balancer := some singleBalancer })]
    defaultTargetInfo := none
    wsTargetInfo := none
    supportedMethods := ["getAccountInfo"] }

/-- Router mapping getAccountInfo to the pair of targets. -/
def accountRouter2 : MethodBasedRouter :=
  { methodMap :=
      [("getAccountInfo",
        { targets := [targetA, targetB], weights := [1 / 2, 1 / 2]
          balancer := some pairBalancer })]
    defaultTargetInfo := none
    wsTargetInfo := none
    supportedMethods := ["getAccountInfo"] }

/-- Router mapping the DAS method getAsset to the single target. -/
def assetRouter : MethodBasedRouter :=
  { methodMap :=
      [("getAsset",
        { targets := [targetA], weights := [1], balancer := some singleBalancer })]
    defaultTargetInfo := none
    wsTargetInfo := none
    supportedMethods := ["getAsset"] }

/-- Initial request context. -/
def ctx0 : CtxState := { provider := "", rpcErrors := [], proxyUserError := false }

/-- Fresh health state of a scenario target. -/
def baseTargetState (url provider : String) : ProxyTargetState :=
  newProxyTarget
    { url := url, supportedMethods := [], slotAmount := 0, isFullHistory := false }
    0 provider "partner_rpc"

/-- Transport configuration with the default ten attempts. -/
def tcfg : TransportCfg := { maxAttempts := 10, currentSlot := 0, getSlotTime := 0 }

/-- JSON-RPC error reply body. -/
def errBody (code : Int) (msg : String) : RespBody :=
  .val (.obj [("jsonrpc", .str "2.0"), ("id", .num 1),
    ("error", .obj [("code", .num code), ("message", .str msg)])])

/-- Clean JSON-RPC success reply body. -/
def okBody : RespBody :=
  .val (.obj [("jsonrpc", .str "2.0"), ("id", .num 1), ("result", .str "ok")])

/-- Environment with no cancellation, zero draws, fixed clock, and the given
per-attempt outcomes. -/
def quietEnv (outB : Nat → RespBody) (outS : Nat → Nat)
    (outE : Nat → Option TransportErr) : DispatchEnv :=
  { outcomeBody := outB, outcomeStatus := outS, outcomeErr := outE
    outcomeTimeMs := fun _ => 5, drawAt := fun _ => 0
    ctxErrBefore := fun _ => none, ctxErrDuring := fun _ => none
    nowAt := fun _ => 100 }

/-! ## Classification lemmas (C5, C6) -/

theorem userErrCode_facts (code : Int) (hc : isUserErrSwitchCode code = true) :
    code ≠ 0 ∧ code ≠ BlockCleanedUpErrCode ∧
    isMethodNotAvailableByErrCode code = false := by
  unfold isUserErrSwitchCode at hc
  simp only [SendTransactionPreflightFailureErrCode,
    TransactionSignatureVerificationFailureErrCode,
    TransactionPrecompileVerificationFailureErrCode,
    TransactionSignatureLenMismatchErrCode, UnsupportedTransactionVersionErrCode,
    ParseErrCode, InvalidRequestErrCode, InvalidParamsErrCode, SlotSkippedErrCode,
    LongTermStorageSlotSkippedErrCode, BlockNotAvailableErrCode,
    BlockStatusNotAvailableYetErrCode, Bool.or_eq_true, decide_eq_true_eq] at hc
  rcases hc with ((((((((((h | h) | h) | h) | h) | h) | h) | h) | h) | h) | h) | h <;>
    subst h <;> exact ⟨by decide, by decide, by decide⟩

theorem rpcErrorAnalysis_userError (code : Int) (msg method : String)
    (hc : isUserErrSwitchCode code = true)
    (hbt : code = InvalidParamsErrCode →
      (goContains msg bigTableProbe || goContains msg blockstoreProbe) = false) :
    rpcErrorAnalysis [RespErr.rpcError code msg method] =
      { firstSlotOnNode := 0, invalidReqErr := true, analyzeErr := none
        hasJoinedErr := false } := by
  obtain ⟨h0, hbc, hmna⟩ := userErrCode_facts code hc
  unfold rpcErrorAnalysis
  simp only [List.foldl_cons, List.foldl_nil]
  unfold rpcErrorAnalysisStep
  by_cases hip : code = InvalidParamsErrCode
  · subst hip
    simp [hbt rfl, isUserErrSwitchCode, isMethodNotAvailableByErrCode,
      InvalidParamsErrCode, BlockCleanedUpErrCode, MethodNotFoundErrCode,
      TransactionHistoryNotAvailableErrCode, SendTransactionPreflightFailureErrCode,
      TransactionSignatureVerificationFailureErrCode,
      TransactionPrecompileVerificationFailureErrCode,
      TransactionSignatureLenMismatchErrCode, UnsupportedTransactionVersionErrCode,
      ParseErrCode, InvalidRequestErrCode, SlotSkippedErrCode,
      LongTermStorageSlotSkippedErrCode, BlockNotAvailableErrCode,
      BlockStatusNotAvailableYetErrCode]
  · simp [hbc, hc, hip, hmna]

theorem rpcErrorAnalysis_bigtable (msg method : String)
    (hbt : (goContains msg bigTableProbe || goContains msg blockstoreProbe) = true) :
    rpcErrorAnalysis [RespErr.rpcError InvalidParamsErrCode msg method] =
      { firstSlotOnNode := 0, invalidReqErr := false, analyzeErr := none
        hasJoinedErr := true } := by
  unfold rpcErrorAnalysis
  simp only [List.foldl_cons, List.foldl_nil]
  unfold rpcErrorAnalysisStep
  simp [hbt, isUserErrSwitchCode, isMethodNotAvailableByErrCode,
    InvalidParamsErrCode, BlockCleanedUpErrCode, MethodNotFoundErrCode,
    TransactionHistoryNotAvailableErrCode]

theorem decode_errBody (code : Int) (msg m : String) (ms : List String)
    (h0 : code ≠ 0) :
    decodeNodeResponse m ms (errBody code msg) =
      ([RespErr.rpcError code msg m], [code]) := by
  simp [decodeNodeResponse, errBody, checkRPCResp, jget, jgetInt, jgetString, h0]

theorem decode_okBody (m : String) (ms : List String) :
    decodeNodeResponse m ms okBody = ([], []) := by
  by_cases hm : m = GetBlock
  · simp [decodeNodeResponse, okBody, checkRPCResp, jget, jgetInt, jgetString,
      checkRPCResp.checkRPCRespResult, hm, Json.isNull]
  · simp [decodeNodeResponse, okBody, checkRPCResp, jget, jgetInt, jgetString,
      checkRPCResp.checkRPCRespResult, hm]

theorem processResponse_userError (ctx : CtxState) (code : Int) (msg : String)
    (hc : isUserErrSwitchCode code = true)
    (hbt : code = InvalidParamsErrCode →
      (goContains msg bigTableProbe || goContains msg blockstoreProbe) = false) :
    processResponse ctx none ["getAccountInfo"] (errBody code msg) none =
      { shouldRetry := false, isHealthy := true, firstSlotOnNode := 0
        ctx := { ctx with rpcErrors := [code], proxyUserError := true } } := by
  obtain ⟨h0, _, _⟩ := userErrCode_facts code hc
  unfold processResponse
  rw [decode_errBody code msg _ _ h0]
  dsimp only
  rw [rpcErrorAnalysis_userError code msg _ hc hbt]
  simp

/-! ## Claim C5 -/

/-- C5 (amended): a reply with a user-error RPC code (safe message) ends the
dispatch in exactly one attempt with the upstream body and status returned
verbatim, the user-error flag set, the error code recorded, and the attempt
recorded against the target as a success; the error counter is never
incremented by this success, though it resets to zero when the success
completes a consecutive-success rollover (pre-call successStreak = 10). -/
theorem C5_user_error_no_penalty (code : Int) (msg : String)
    (st : ProxyTargetState)
    (hc : isUserErrSwitchCode code = true)
    (hbt : code = InvalidParamsErrCode →
      (goContains msg bigTableProbe || goContains msg blockstoreProbe) = false) :
    executeWithRetries tcfg accountRouter ["getAccountInfo"]
      (quietEnv (fun _ => errBody code msg) (fun _ => 200) (fun _ => none))
      ctx0 [("u1", st)] =
      { respBody := errBody code msg, statusCode := 200, attempts := 1, err := none
        ctx := { provider := "p1", rpcErrors := [code], proxyUserError := true }
        store := [("u1", ProxyTargetUpdateStats st true ["getAccountInfo"] 5 0 100)]
        trace := ["u1"] } ∧
    (st.targetType ≠ FromConfigTargetType →
      (findRestriction (ProxyTargetUpdateStats st true ["getAccountInfo"] 5 0
          100).availableMethods "getAccountInfo").errCounter =
        if (findRestriction st.availableMethods "getAccountInfo").successCounter <
            consecutiveSuccessResponses
        then (findRestriction st.availableMethods "getAccountInfo").errCounter
        else 0) := by
  constructor
  · unfold executeWithRetries
    norm_num [GetBalancerForMethod, GetBalancerForMethod.fallbackDefault,
      accountRouter, lookupInfo, ProbabilisticBalancer.IsAvailable, singleBalancer,
      tcfg]
    rw [show (10 : Nat) = 9 + 1 from rfl]
    rw [executeLoop]
    simp only [quietEnv]
    rw [show ({ targets := [targetA], weights := [1], cumulativeWeights := [1] } :
        ProbabilisticBalancer TargetRef).GetNext [] 0 = .ok (targetA, 0) from rfl]
    dsimp only
    rw [show (decide ("getAccountInfo" ∈ CNFTMethodList)) = false from by decide]
    simp only [Bool.false_eq_true, false_and, if_false]
    rw [processResponse_userError _ code msg hc hbt]
    simp [updateMetricsAndStats, updateStore, targetA, ctx0]
  · intro hty
    rcases findRestriction_stepSucc_self 5 100 st.availableMethods "getAccountInfo"
      with ⟨hlt, hge⟩
    by_cases hsc : (findRestriction st.availableMethods "getAccountInfo").successCounter <
        consecutiveSuccessResponses
    · rw [if_pos hsc]
      rw [show (ProxyTargetUpdateStats st true ["getAccountInfo"] 5 0 100).availableMethods
          = updateStatsMethodStep true 5 100 st.availableMethods "getAccountInfo" from by
        unfold ProxyTargetUpdateStats
        rw [updateStats_availableMethods st true ["getAccountInfo"] 5 0 none 100 hty]
        rfl]
      exact (hlt hsc).2
    · rw [if_neg hsc]
      rw [show (ProxyTargetUpdateStats st true ["getAccountInfo"] 5 0 100).availableMethods
          = updateStatsMethodStep true 5 100 st.availableMethods "getAccountInfo" from by
        unfold ProxyTargetUpdateStats
        rw [updateStats_availableMethods st true ["getAccountInfo"] 5 0 none 100 hty]
        rfl]
      exact (hge hsc).2

/-- Iterated successful UpdateStats calls on a chosen method. -/
def repeatSuccessOn (m : String) (t : ProxyTargetState) : Nat → ProxyTargetState
  | 0 => t
  | n + 1 => UpdateStats (repeatSuccessOn m t n) true [m] 5 0 none 100

/-- Target whose next success triggers the consecutive-success rollover:
two failures (errCounter = 2) followed by ten successes (streak = 10). -/
def rolloverTarget : ProxyTargetState :=
  repeatSuccessOn "getAccountInfo"
    (UpdateStats (UpdateStats freshPublicTarget false ["getAccountInfo"] 5 0 none 100)
      false ["getAccountInfo"] 5 0 none 100) 10

/-- C5 witness: the user-error dispatch at the invalid-params reply of the
spec scenario, on a fresh target. -/
theorem C5_user_error_no_penalty_witness :
    isUserErrSwitchCode (-32602) = true ∧
    (executeWithRetries tcfg accountRouter ["getAccountInfo"]
        (quietEnv (fun _ => errBody (-32602) "Invalid params: bad pubkey")
          (fun _ => 200) (fun _ => none)) ctx0 [("u1", freshPublicTarget)] =
      { respBody := errBody (-32602) "Invalid params: bad pubkey", statusCode := 200
        attempts := 1, err := none
        ctx := { provider := "p1", rpcErrors := [-32602], proxyUserError := true }
        store := [("u1", ProxyTargetUpdateStats freshPublicTarget true
          ["getAccountInfo"] 5 0 100)]
        trace := ["u1"] } ∧
      (freshPublicTarget.targetType ≠ FromConfigTargetType →
        (findRestriction (ProxyTargetUpdateStats freshPublicTarget true
            ["getAccountInfo"] 5 0 100).availableMethods "getAccountInfo").errCounter =
          if (findRestriction freshPublicTarget.availableMethods
              "getAccountInfo").successCounter < consecutiveSuccessResponses
          then (findRestriction freshPublicTarget.availableMethods
            "getAccountInfo").errCounter
          else 0)) :=
  ⟨by decide,
   C5_user_error_no_penalty (-32602) "Invalid params: bad pubkey" freshPublicTarget
     (by decide) (fun _ => by decide)⟩

/-- C5 counterexample: a user-error reply arriving when the target sits at
(successStreak, errorCounter) = (10, 2) is recorded as a success and resets
the error counter to zero, so the errorCounter is not left unchanged. -/
theorem C5_counterexample :
    (findRestriction rolloverTarget.availableMethods "getAccountInfo").errCounter = 2 ∧
    (executeWithRetries tcfg accountRouter ["getAccountInfo"]
        (quietEnv (fun _ => errBody (-32602) "Invalid params: bad pubkey")
          (fun _ => 200) (fun _ => none)) ctx0
        [("u1", rolloverTarget)]).ctx.proxyUserError = true ∧
    (findRestriction ((lookupStore (executeWithRetries tcfg accountRouter
        ["getAccountInfo"]
        (quietEnv (fun _ => errBody (-32602) "Invalid params: bad pubkey")
          (fun _ => 200) (fun _ => none)) ctx0
        [("u1", rolloverTarget)]).store "u1").getD
      rolloverTarget).availableMethods "getAccountInfo").errCounter = 0 := by
  refine ⟨by decide, by decide, by decide⟩

/-! ## Claim C6 -/

theorem processResponse_bigtable (ctx : CtxState) (msg : String)
    (hbt : (goContains msg bigTableProbe || goContains msg blockstoreProbe) = true) :
    processResponse ctx none ["getAccountInfo"] (errBody InvalidParamsErrCode msg)
        none =
      { shouldRetry := true, isHealthy := false, firstSlotOnNode := 0
        ctx := { ctx with rpcErrors := [InvalidParamsErrCode] } } := by
  unfold processResponse
  rw [decode_errBody _ msg _ _ (by decide)]
  dsimp only
  rw [rpcErrorAnalysis_bigtable msg _ hbt]
  simp

theorem processResponse_ok (ctx : CtxState) :
    processResponse ctx none ["getAccountInfo"] okBody none =
      { shouldRetry := false, isHealthy := true, firstSlotOnNode := 0
        ctx := { ctx with rpcErrors := [] } } := by
  unfold processResponse
  rw [decode_okBody]
  dsimp only
  simp [rpcErrorAnalysis]

/-- C6: an InvalidParams reply whose message matches the BigTable or
blockstore probe is not classified as a user error; the dispatcher treats it
as a transient node error, records a failure against the target (whose error
counter increments), excludes it and retries the request on the other
target, which serves it. -/
theorem C6_bigtable_transient_retry (msg : String) (st1 st2 : ProxyTargetState)
    (hbt : (goContains msg bigTableProbe || goContains msg blockstoreProbe) = true) :
    (rpcErrorAnalysis [RespErr.rpcError InvalidParamsErrCode msg
      "getAccountInfo"]).invalidReqErr = false ∧
    executeWithRetries tcfg accountRouter2 ["getAccountInfo"]
      (quietEnv (fun k => if k = 0 then errBody InvalidParamsErrCode msg else okBody)
        (fun _ => 200) (fun _ => none)) ctx0 [("u1", st1), ("u2", st2)] =
      { respBody := okBody, statusCode := 200, attempts := 2, err := none
        ctx := { provider := "p2", rpcErrors := [], proxyUserError := false }
        store := [("u1", ProxyTargetUpdateStats st1 false ["getAccountInfo"] 5 0 100),
                  ("u2", ProxyTargetUpdateStats st2 true ["getAccountInfo"] 5 0 100)]
        trace := ["u1", "u2"] } ∧
    (st1.targetType ≠ FromConfigTargetType →
      (findRestriction (ProxyTargetUpdateStats st1 false ["getAccountInfo"] 5 0
          100).availableMethods "getAccountInfo").errCounter =
        (findRestriction st1.availableMethods "getAccountInfo").errCounter + 1) := by
  refine ⟨?_, ?_, ?_⟩
  · rw [rpcErrorAnalysis_bigtable msg _ hbt]
  · unfold executeWithRetries
    norm_num [GetBalancerForMethod, GetBalancerForMethod.fallbackDefault,
      accountRouter2, lookupInfo, ProbabilisticBalancer.IsAvailable, pairBalancer,
      tcfg]
    rw [show (10 : Nat) = 9 + 1 from rfl]
    rw [executeLoop]
    simp only [quietEnv]
    rw [show ({ targets := [targetA, targetB], weights := [1 / 2, 1 / 2], cumulativeWeights := [1 / 2, 1] } : ProbabilisticBalancer TargetRef).GetNext [] 0 = .ok (targetA, 0) from by
      norm_num [ProbabilisticBalancer.GetNext, findCumIdx, targetA]]
    dsimp only
    rw [show (decide ("getAccountInfo" ∈ CNFTMethodList)) = false from by decide]
    simp only [Bool.false_eq_true, false_and, if_false, reduceIte]
    rw [processResponse_bigtable _ msg hbt]
    simp only [Bool.not_true, Bool.false_eq_true, if_false, updateMetricsAndStats,
      updateStore]
    rw [show (9 : Nat) = 8 + 1 from rfl]
    rw [executeLoop]
    simp only [quietEnv]
    rw [show ({ targets := [targetA, targetB], weights := [1 / 2, 1 / 2], cumulativeWeights := [1 / 2, 1] } : ProbabilisticBalancer TargetRef).GetNext ([] ++ [0]) 0 = .ok (targetB, 1) from by
      norm_num [ProbabilisticBalancer.GetNext, buildFiltered, pickFiltered, targetB]
      simp only [reduceCtorEq, if_false]
      norm_num]
    dsimp only
    norm_num
    rw [processResponse_ok]
    simp [updateMetricsAndStats, updateStore, targetA, targetB, ctx0]
  · intro hty
    rcases findRestriction_stepFail_self 5 100 st1.availableMethods "getAccountInfo"
      with ⟨he, _, _⟩
    rw [show (ProxyTargetUpdateStats st1 false ["getAccountInfo"] 5 0 100).availableMethods
        = updateStatsMethodStep false 5 100 st1.availableMethods "getAccountInfo" from by
      unfold ProxyTargetUpdateStats
      rw [updateStats_availableMethods st1 false ["getAccountInfo"] 5 0 none 100 hty]
      rfl]
    exact he

/-- C6 witness: the spec BigTable message on two fresh targets. -/
theorem C6_bigtable_transient_retry_witness :
    (goContains "BigTable query failed (maybe timeout due to too large range)"
        bigTableProbe ||
      goContains "BigTable query failed (maybe timeout due to too large range)"
        blockstoreProbe) = true ∧
    (rpcErrorAnalysis [RespErr.rpcError InvalidParamsErrCode
      "BigTable query failed (maybe timeout due to too large range)"
      "getAccountInfo"]).invalidReqErr = false :=
  ⟨by decide,
   (C6_bigtable_transient_retry
     "BigTable query failed (maybe timeout due to too large range)"
     freshPublicTarget freshPublicTarget (by decide)).1⟩

/-! ## Claim C9 -/

/-- C9: for a DAS/CNFT primary method, any attempt that returns without
transport error and with a non-empty body is returned immediately on that
attempt: the body (even one carrying a JSON-RPC error object) is passed
through unanalysed, no RPC errors or user-error flag are recorded on the
context, and the attempt is recorded against the target as healthy. -/
theorem C9_das_fast_path (body : RespBody) (status : Nat) (st : ProxyTargetState)
    (hbody : body.isEmpty = false) :
    executeWithRetries tcfg assetRouter ["getAsset"]
      (quietEnv (fun _ => body) (fun _ => status) (fun _ => none)) ctx0
      [("u1", st)] =
      { respBody := body, statusCode := status, attempts := 1, err := none
        ctx := { provider := "p1", rpcErrors := [], proxyUserError := false }
        store := [("u1", ProxyTargetUpdateStats st true ["getAsset"] 5 0 100)]
        trace := ["u1"] } := by
  unfold executeWithRetries
  norm_num [GetBalancerForMethod, GetBalancerForMethod.fallbackDefault,
    assetRouter, lookupInfo, ProbabilisticBalancer.IsAvailable, singleBalancer, tcfg]
  rw [show (10 : Nat) = 9 + 1 from rfl]
  rw [executeLoop]
  simp only [quietEnv]
  rw [show ({ targets := [targetA], weights := [1], cumulativeWeights := [1] } :
      ProbabilisticBalancer TargetRef).GetNext [] 0 = .ok (targetA, 0) from rfl]
  dsimp only
  rw [show (decide ("getAsset" ∈ CNFTMethodList)) = true from by decide]
  simp [hbody, updateMetricsAndStats, updateStore, targetA, ctx0]

/-- C9 witness: a DAS reply carrying a JSON-RPC error object is still
returned on the first attempt with the target recorded as healthy. -/
theorem C9_das_fast_path_witness :
    (errBody (-32602) "bad params").isEmpty = false ∧
    executeWithRetries tcfg assetRouter ["getAsset"]
      (quietEnv (fun _ => errBody (-32602) "bad params") (fun _ => 200)
        (fun _ => none)) ctx0 [("u1", freshPublicTarget)] =
      { respBody := errBody (-32602) "bad params", statusCode := 200, attempts := 1
        err := none
        ctx := { provider := "p1", rpcErrors := [], proxyUserError := false }
        store := [("u1", ProxyTargetUpdateStats freshPublicTarget true ["getAsset"]
          5 0 100)]
        trace := ["u1"] } :=
  ⟨by decide,
   C9_das_fast_path (errBody (-32602) "bad params") 200 freshPublicTarget (by decide)⟩

/-! ## Claim C8 -/

/-- Transport parameters with a single allowed attempt. -/
def tcfg1 : TransportCfg := { maxAttempts := 1, currentSlot := 0, getSlotTime := 0 }

/-- C8: when the dispatch loop ends with an empty body, no transport error
and a live context, the never-selected case returns 503 with the
no-available-targets body as claimed; but the attempts-exceeded case,
exercised by a full one-attempt run whose only reply is empty, returns the
500 error carrying the no-available-targets code and message (2000) while
recording RPC code 2001 on the context, not an attempts-exceeded body. -/
theorem C8_empty_response_terminal_errors :
    handleEmptyResponse none none ctx0 =
      ({ ctx0 with rpcErrors := [ExtraNodeNoAvailableTargetsCode] },
       .httpError 503 ExtraNodeNoAvailableTargetsCode
         ExtraNodeNoAvailableTargetsMessage) ∧
    (executeWithRetries tcfg1 accountRouter ["getAccountInfo"]
        (quietEnv (fun _ => .empty) (fun _ => 200) (fun _ => none)) ctx0
        [("u1", freshPublicTarget)]).attempts = 1 ∧
    (executeWithRetries tcfg1 accountRouter ["getAccountInfo"]
        (quietEnv (fun _ => .empty) (fun _ => 200) (fun _ => none)) ctx0
        [("u1", freshPublicTarget)]).respBody.isEmpty = true ∧
    (executeWithRetries tcfg1 accountRouter ["getAccountInfo"]
        (quietEnv (fun _ => .empty) (fun _ => 200) (fun _ => none)) ctx0
        [("u1", freshPublicTarget)]).ctx.rpcErrors =
      [ExtraNodeAttemptsExceededCode] ∧
    (executeWithRetries tcfg1 accountRouter ["getAccountInfo"]
        (quietEnv (fun _ => .empty) (fun _ => 200) (fun _ => none)) ctx0
        [("u1", freshPublicTarget)]).err =
      some (.httpError 500 ExtraNodeNoAvailableTargetsCode
        ExtraNodeNoAvailableTargetsMessage) ∧
    ¬ (executeWithRetries tcfg1 accountRouter ["getAccountInfo"]
        (quietEnv (fun _ => .empty) (fun _ => 200) (fun _ => none)) ctx0
        [("u1", freshPublicTarget)]).err =
      some (.httpError 500 ExtraNodeAttemptsExceededCode
        ExtraNodeAttemptsExceededMessage) := by
  decide

/-! ## Claim C7 -/

/-- Endpoint of provider provW marked handleWebSocket, serving no RPC
methods. -/
def endpointW : EndpointConfig :=
  { url := "wss://w", weight := 1, methods := [], methodGroups := []
    excludeMethods := [], handleOther := false, handleWebSocket := true }

/-- Endpoint of provider provD marked handleOther. -/
def endpointD : EndpointConfig :=
  { url := "https://d", weight := 1, methods := [], methodGroups := []
    excludeMethods := [], handleOther := true, handleWebSocket := false }

/-- Configuration with one WebSocket endpoint and one handle-other
endpoint. -/
def cfgWS : SolanaConfig :=
  { dasAPINodes := [], basicRouteNodes := [], wsHostNodes := []
    methodGroups := []
    providers := [{ name := "provW", endpoints := [endpointW] },
                  { name := "provD", endpoints := [endpointD] }] }

def targetW : TargetRef := { url := "wss://w", provider := "provW" }

def targetD : TargetRef := { url := "https://d", provider := "provD" }

/-- Balancer built for the wsTargetInfo entry of cfgWS. -/
def wsBalancer : ProbabilisticBalancer TargetRef :=
  { targets := [targetW], weights := [1], cumulativeWeights := [1] }

/-- Balancer built for the defaultTargetInfo entry of cfgWS. -/
def dBalancer : ProbabilisticBalancer TargetRef :=
  { targets := [targetD], weights := [1], cumulativeWeights := [1] }

/-- Router produced by NewMethodBasedRouter on cfgWS. -/
def routerWS : MethodBasedRouter :=
  { methodMap := []
    defaultTargetInfo :=
      some { targets := [targetD], weights := [1], balancer := some dBalancer }
    wsTargetInfo :=
      some { targets := [targetW], weights := [1], balancer := some wsBalancer }
    supportedMethods := [] }

/-- C7: the router built from cfgWS carries a populated wsInfo selector that
does yield the WebSocket target, yet GetBalancerForMethod on the WebSocket
method name returns the default (handle-other) balancer - the current
method_router.go has no WebSocket branch - so the upgrade is proxied to the
handle-other endpoint instead of the WebSocket one, and the claimed
wsInfo-based routing does not happen. -/
theorem C7_ws_selector_bypassed :
    NewMethodBasedRouter cfgWS = .ok routerWS ∧
    routerWS.wsTargetInfo =
      some { targets := [targetW], weights := [1], balancer := some wsBalancer } ∧
    wsBalancer.GetNext [] 0 = .ok (targetW, 0) ∧
    GetBalancerForMethod routerWS WebSocketMethodName = some dBalancer ∧
    dBalancer.targets ≠ wsBalancer.targets ∧
    ProxyWSRequest (some routerWS) false 0 = .proxied "provD" "https://d" := by
  refine ⟨?_, rfl, rfl, rfl, by decide, by decide⟩
  norm_num [NewMethodBasedRouter, processProviders, processEndpoint,
    processEndpointAddMethod, processLegacyConfig, legacyDasStep, legacyWsStep,
    legacyBasicStep, buildOptInfoBalancer, buildMethodMapBalancers,
    NewProbabilisticBalancer, cumulativeOf, appendTarget, expandedMethodsOf,
    endpointWeight, MethodTargetInfo.empty, cfgWS, endpointW, endpointD,
    routerWS, wsBalancer, dBalancer, targetW, targetD, DefaultEndpointWeight]

/-! ## Claim C1: router-construction invariants -/

/-- Method m is listed (after method-group expansion, net of the endpoint
exclusion list) on at least one endpoint of the configuration. -/
def methodListedInConfig (cfg : SolanaConfig) (m : String) : Bool :=
  cfg.providers.any (fun p => p.endpoints.any (fun e =>
    (expandedMethodsOf cfg.methodGroups e).contains m &&
    !(e.excludeMethods.contains m)))

/-- The map binds m to an entry holding at least one target. -/
def KeyHasTargets (mm : List (String × MethodTargetInfo)) (m : String) : Prop :=
  ∃ info, lookupInfo mm m = some info ∧ 0 < info.targets.length

/-- The router map binds m to an entry carrying its own balancer. -/
def KeyHasBalancer (r : MethodBasedRouter) (m : String) : Prop :=
  ∃ info b, lookupInfo r.methodMap m = some info ∧ info.balancer = some b

theorem lookupInfo_set_self (mm : List (String × MethodTargetInfo))
    (k : String) (v : MethodTargetInfo) :
    lookupInfo (setInfo mm k v) k = some v := by
  induction mm with
  | nil => simp [setInfo, lookupInfo]
  | cons p rest ih =>
    by_cases h : p.fst = k
    · simp [setInfo, h, lookupInfo]
    · simp [setInfo, h, lookupInfo, ih]

theorem lookupInfo_set_other (mm : List (String × MethodTargetInfo))
    (k k2 : String) (v : MethodTargetInfo) (h : k2 ≠ k) :
    lookupInfo (setInfo mm k v) k2 = lookupInfo mm k2 := by
  induction mm with
  | nil => simp [setInfo, lookupInfo, Ne.symm h]
  | cons p rest ih =>
    by_cases hp : p.fst = k
    · simp [setInfo, hp, lookupInfo, Ne.symm h]
    · by_cases hp2 : p.fst = k2
      · simp [setInfo, hp, lookupInfo, hp2, h]
      · simp [setInfo, hp, lookupInfo, hp2, ih]

theorem foldlPreserve {α β : Type} (P : α → Prop) (f : α → β → α)
    (hf : ∀ a b, P a → P (f a b)) :
    ∀ (l : List β) (a : α), P a → P (l.foldl f a)
  | [], _, h => h
  | b :: l, a, h => foldlPreserve P f hf l (f a b) (hf a b h)

theorem foldlEstablish {α β : Type} (P : α → Prop) (f : α → β → α)
    (hf : ∀ a b, P a → P (f a b)) (b0 : β) (hb : ∀ a, P (f a b0)) :
    ∀ (l : List β) (a : α), b0 ∈ l → P (l.foldl f a) := by
  intro l
  induction l with
  | nil => intro a h; cases h
  | cons b l ih =>
    intro a h
    rcases List.mem_cons.mp h with hb0 | hmem
    · rw [hb0] at hb
      exact foldlPreserve P f hf l (f a b) (hb a)
    · exact ih (f a b) hmem

theorem addMethod_preserves (t : TargetRef) (w : Rat) (ex : List String)
    (r : MethodBasedRouter) (method m : String)
    (h : KeyHasTargets r.methodMap m) :
    KeyHasTargets (processEndpointAddMethod t w ex r method).methodMap m := by
  unfold processEndpointAddMethod
  by_cases hex : ex.contains method = true
  · rw [if_pos hex]; exact h
  · rw [if_neg hex]
    by_cases hm : m = method
    · subst hm
      exact ⟨_, lookupInfo_set_self _ _ _, by simp⟩
    · obtain ⟨info, hl, hlen⟩ := h
      exact ⟨info, by rw [lookupInfo_set_other _ _ _ _ hm]; exact hl, hlen⟩

theorem addMethod_establishes (t : TargetRef) (w : Rat) (ex : List String)
    (r : MethodBasedRouter) (method : String)
    (hex : ex.contains method = false) :
    KeyHasTargets (processEndpointAddMethod t w ex r method).methodMap method := by
  unfold processEndpointAddMethod
  rw [if_neg (by simpa using hex)]
  exact ⟨_, lookupInfo_set_self _ _ _, by simp⟩

theorem processEndpoint_methodMap (groups : List MethodGroupConfig)
    (pn : String) (r : MethodBasedRouter) (e : EndpointConfig) :
    (processEndpoint groups pn r e).methodMap =
      ((expandedMethodsOf groups e).foldl
        (processEndpointAddMethod { url := e.url, provider := pn }
          (endpointWeight e) e.excludeMethods) r).methodMap := by
  unfold processEndpoint
  by_cases h1 : e.handleWebSocket <;> by_cases h2 : e.handleOther <;>
    simp [h1, h2]

theorem processEndpoint_preserves (groups : List MethodGroupConfig)
    (pn : String) (r : MethodBasedRouter) (e : EndpointConfig) (m : String)
    (h : KeyHasTargets r.methodMap m) :
    KeyHasTargets (processEndpoint groups pn r e).methodMap m := by
  rw [processEndpoint_methodMap]
  exact foldlPreserve (fun r2 => KeyHasTargets r2.methodMap m) _
    (fun a b hb => addMethod_preserves _ _ _ a b m hb) _ r h

theorem processEndpoint_establishes (groups : List MethodGroupConfig)
    (pn : String) (r : MethodBasedRouter) (e : EndpointConfig) (m : String)
    (hmem : (expandedMethodsOf groups e).contains m = true)
    (hex : e.excludeMethods.contains m = false) :
    KeyHasTargets (processEndpoint groups pn r e).methodMap m := by
  rw [processEndpoint_methodMap]
  exact foldlEstablish (fun r2 => KeyHasTargets r2.methodMap m) _
    (fun a b hb => addMethod_preserves _ _ _ a b m hb) m
    (fun a => addMethod_establishes _ _ _ a m hex) _ r (by simpa using hmem)

theorem providersFold_establishes (groups : List MethodGroupConfig)
    (providers : List ProviderConfig) (r : MethodBasedRouter) (m : String)
    (p0 : ProviderConfig) (e0 : EndpointConfig)
    (hp : p0 ∈ providers) (he : e0 ∈ p0.endpoints)
    (hmem : (expandedMethodsOf groups e0).contains m = true)
    (hex : e0.excludeMethods.contains m = false) :
    KeyHasTargets ((providers.foldl (fun r p =>
      p.endpoints.foldl (processEndpoint groups p.name) r) r).methodMap) m :=
  foldlEstablish (fun r2 => KeyHasTargets r2.methodMap m)
    (fun r p => p.endpoints.foldl (processEndpoint groups p.name) r)
    (fun a p hb => foldlPreserve (fun r2 => KeyHasTargets r2.methodMap m)
      (processEndpoint groups p.name)
      (fun a2 e hb2 => processEndpoint_preserves groups p.name a2 e m hb2)
      p.endpoints a hb)
    p0
    (fun a => foldlEstablish (fun r2 => KeyHasTargets r2.methodMap m)
      (processEndpoint groups p0.name)
      (fun a2 e hb2 => processEndpoint_preserves groups p0.name a2 e m hb2)
      e0 (fun a2 => processEndpoint_establishes groups p0.name a2 e0 m hmem hex)
      p0.endpoints a he)
    providers r hp

theorem buildInfoBalancer_pos (i i2 : MethodTargetInfo)
    (hok : buildInfoBalancer i = .ok i2) (hlen : 0 < i.targets.length) :
    ∃ b, i2.balancer = some b := by
  unfold buildInfoBalancer at hok
  rw [if_pos hlen] at hok
  cases hnb : NewProbabilisticBalancer i.targets i.weights with
  | ok b =>
    rw [hnb] at hok
    cases hok
    exact ⟨b, rfl⟩
  | error e =>
    rw [hnb] at hok
    cases hok

theorem buildMethodMapBalancers_hasBal
    (mm mm2 : List (String × MethodTargetInfo)) (m : String)
    (hok : buildMethodMapBalancers mm = .ok mm2) (h : KeyHasTargets mm m) :
    ∃ info b, lookupInfo mm2 m = some info ∧ info.balancer = some b := by
  induction mm generalizing mm2 with
  | nil =>
    obtain ⟨info, hl, _⟩ := h
    simp [lookupInfo] at hl
  | cons p rest ih =>
    obtain ⟨k, i⟩ := p
    obtain ⟨info, hl, hlen⟩ := h
    unfold buildMethodMapBalancers at hok
    cases hb1 : buildInfoBalancer i with
    | error e =>
      rw [hb1] at hok
      cases hok
    | ok i2 =>
      rw [hb1] at hok
      dsimp only at hok
      cases hr : buildMethodMapBalancers rest with
      | error e =>
        rw [hr] at hok
        cases hok
      | ok rest2 =>
        rw [hr] at hok
        dsimp only at hok
        cases hok
        by_cases hk : k = m
        · have hinfo : info = i := by
            rw [show lookupInfo ((k, i) :: rest) m = some i from by
              simp [lookupInfo, hk]] at hl
            exact (Option.some_injective _ hl).symm
          obtain ⟨b, hbal⟩ := buildInfoBalancer_pos i i2 hb1 (hinfo ▸ hlen)
          exact ⟨i2, b, by simp [lookupInfo, hk], hbal⟩
        · have hl2 : lookupInfo rest m = some info := by
            rw [show lookupInfo ((k, i) :: rest) m = lookupInfo rest m from by
              simp [lookupInfo, hk]] at hl
            exact hl
          obtain ⟨info2, b, hlr, hbr⟩ := ih rest2 hr ⟨info, hl2, hlen⟩
          exact ⟨info2, b, by simp [lookupInfo, hk, hlr], hbr⟩

theorem processProviders_hasBal (groups : List MethodGroupConfig)
    (r0 r1 : MethodBasedRouter) (providers : List ProviderConfig) (m : String)
    (hok : processProviders groups r0 providers = .ok r1)
    (h : KeyHasTargets ((providers.foldl (fun r p =>
      p.endpoints.foldl (processEndpoint groups p.name) r) r0).methodMap) m) :
    KeyHasBalancer r1 m := by
  unfold processProviders at hok
  dsimp only at hok
  cases hmm : buildMethodMapBalancers ((providers.foldl (fun r p =>
      p.endpoints.foldl (processEndpoint groups p.name) r) r0).methodMap) with
  | error e =>
    rw [hmm] at hok
    cases hok
  | ok mm =>
    rw [hmm] at hok
    dsimp only at hok
    cases hws : buildOptInfoBalancer ((providers.foldl (fun r p =>
        p.endpoints.foldl (processEndpoint groups p.name) r) r0).wsTargetInfo) with
    | error e =>
      rw [hws] at hok
      cases hok
    | ok ws =>
      rw [hws] at hok
      dsimp only at hok
      cases hd : buildOptInfoBalancer ((providers.foldl (fun r p =>
          p.endpoints.foldl (processEndpoint groups p.name) r) r0).defaultTargetInfo) with
      | error e =>
        rw [hd] at hok
        cases hok
      | ok d =>
        rw [hd] at hok
        dsimp only at hok
        cases hok
        obtain ⟨info, b, hl, hb⟩ := buildMethodMapBalancers_hasBal _ mm m hmm h
        exact ⟨info, b, hl, hb⟩

theorem processBatchNodesStep_pres (ts : List TargetRef) (ws : List Rat)
    (m : String) (acc : Except BalancerError MethodBasedRouter) (method : String)
    (h : ∀ ra, acc = .ok ra → KeyHasBalancer ra m) :
    ∀ ra, processBatchNodesStep ts ws acc method = .ok ra → KeyHasBalancer ra m := by
  intro ra hok
  cases acc with
  | error e => simp [processBatchNodesStep] at hok
  | ok r =>
    unfold processBatchNodesStep at hok
    dsimp only at hok
    by_cases hlen : 0 < ts.length
    · rw [if_pos hlen] at hok
      cases hnb : NewProbabilisticBalancer ts ws with
      | error e =>
        rw [hnb] at hok
        cases hok
      | ok b =>
        rw [hnb] at hok
        dsimp only at hok
        cases hok
        by_cases hmeq : method = m
        · subst hmeq
          exact ⟨_, b, lookupInfo_set_self _ _ _, rfl⟩
        · obtain ⟨info, b2, hl, hb⟩ := h r rfl
          exact ⟨info, b2, by
            rw [lookupInfo_set_other _ _ _ _ (fun hc => hmeq hc.symm)]
            exact hl, hb⟩
    · rw [if_neg hlen] at hok
      cases hok
      obtain ⟨info, b2, hl, hb⟩ := h r rfl
      exact ⟨info, b2, hl, hb⟩

theorem processBatchNodes_hasBal (r : MethodBasedRouter)
    (nodes : List SolanaNode) (ms : List String) (r2 : MethodBasedRouter)
    (ts : List TargetRef) (ws : List Rat) (m : String)
    (hok : processBatchNodes r nodes ms = .ok (r2, ts, ws))
    (h : KeyHasBalancer r m) : KeyHasBalancer r2 m := by
  unfold processBatchNodes at hok
  dsimp only at hok
  have hfold := foldlPreserve
    (fun acc => ∀ ra, acc = .ok ra → KeyHasBalancer ra m)
    (processBatchNodesStep
      (nodes.map (fun n => ({ url := n.url, provider := n.provider } : TargetRef)))
      (nodes.map (fun _ => DefaultEndpointWeight)))
    (fun acc method hacc => processBatchNodesStep_pres _ _ m acc method hacc)
    ms (.ok r) (fun ra hra => by cases hra; exact h)
  cases hf : ms.foldl (processBatchNodesStep
      (nodes.map (fun n => ({ url := n.url, provider := n.provider } : TargetRef)))
      (nodes.map (fun _ => DefaultEndpointWeight))) (.ok r) with
  | error e =>
    rw [hf] at hok
    cases hok
  | ok rfin =>
    rw [hf] at hok
    dsimp only at hok
    injection hok with h3
    rw [show r2 = rfin from (congrArg Prod.fst h3).symm]
    exact hfold rfin hf

theorem legacyDasStep_hasBal (r r2 : MethodBasedRouter) (cfg : SolanaConfig)
    (m : String) (hok : legacyDasStep r cfg = .ok r2)
    (h : KeyHasBalancer r m) : KeyHasBalancer r2 m := by
  unfold legacyDasStep at hok
  by_cases hn : 0 < cfg.dasAPINodes.length
  · rw [if_pos hn] at hok
    cases hpb : processBatchNodes r cfg.dasAPINodes CNFTMethodList with
    | error e =>
      rw [hpb] at hok
      cases hok
    | ok triple =>
      obtain ⟨ra, ts, ws⟩ := triple
      rw [hpb] at hok
      dsimp only at hok
      injection hok with h2
      rw [← h2]
      exact processBatchNodes_hasBal r _ _ ra ts ws m hpb h
  · rw [if_neg hn] at hok
    injection hok with h2
    rw [← h2]
    exact h

theorem legacyWsStep_hasBal (r r2 : MethodBasedRouter) (cfg : SolanaConfig)
    (m : String) (hok : legacyWsStep r cfg = .ok r2)
    (h : KeyHasBalancer r m) : KeyHasBalancer r2 m := by
  unfold legacyWsStep at hok
  by_cases hn : 0 < cfg.wsHostNodes.length
  · rw [if_pos hn] at hok
    cases hpb : processBatchNodes r cfg.wsHostNodes [] with
    | error e =>
      rw [hpb] at hok
      cases hok
    | ok triple =>
      obtain ⟨ra, ts, ws⟩ := triple
      rw [hpb] at hok
      dsimp only at hok
      have hra : KeyHasBalancer ra m := processBatchNodes_hasBal r _ _ ra ts ws m hpb h
      by_cases hts : 0 < ts.length
      · rw [if_pos hts] at hok
        cases hnb : NewProbabilisticBalancer ts ws with
        | error e =>
          rw [hnb] at hok
          cases hok
        | ok b =>
          rw [hnb] at hok
          dsimp only at hok
          cases hok
          obtain ⟨info, b2, hl, hb⟩ := hra
          exact ⟨info, b2, hl, hb⟩
      · rw [if_neg hts] at hok
        injection hok with h2
        rw [← h2]
        exact hra
  · rw [if_neg hn] at hok
    injection hok with h2
    rw [← h2]
    exact h

theorem legacyBasicStep_hasBal (r r2 : MethodBasedRouter) (cfg : SolanaConfig)
    (m : String) (hok : legacyBasicStep r cfg = .ok r2)
    (h : KeyHasBalancer r m) : KeyHasBalancer r2 m := by
  unfold legacyBasicStep at hok
  by_cases hn : 0 < cfg.basicRouteNodes.length
  · rw [if_pos hn] at hok
    cases hpb : processBatchNodes r cfg.basicRouteNodes [] with
    | error e =>
      rw [hpb] at hok
      cases hok
    | ok triple =>
      obtain ⟨ra, ts, ws⟩ := triple
      rw [hpb] at hok
      dsimp only at hok
      have hra : KeyHasBalancer ra m := processBatchNodes_hasBal r _ _ ra ts ws m hpb h
      by_cases hts : 0 < ts.length
      · rw [if_pos hts] at hok
        cases hnb : NewProbabilisticBalancer ts ws with
        | error e =>
          rw [hnb] at hok
          cases hok
        | ok b =>
          rw [hnb] at hok
          dsimp only at hok
          cases hok
          obtain ⟨info, b2, hl, hb⟩ := hra
          exact ⟨info, b2, hl, hb⟩
      · rw [if_neg hts] at hok
        injection hok with h2
        rw [← h2]
        exact hra
  · rw [if_neg hn] at hok
    injection hok with h2
    rw [← h2]
    exact h

theorem processLegacyConfig_hasBal (r r' : MethodBasedRouter)
    (cfg : SolanaConfig) (m : String)
    (hok : processLegacyConfig r cfg = .ok r')
    (h : KeyHasBalancer r m) : KeyHasBalancer r' m := by
  unfold processLegacyConfig at hok
  cases hd : legacyDasStep r cfg with
  | error e =>
    rw [hd] at hok
    cases hok
  | ok ra =>
    rw [hd] at hok
    dsimp only at hok
    cases hw : legacyWsStep ra cfg with
    | error e =>
      rw [hw] at hok
      cases hok
    | ok rb =>
      rw [hw] at hok
      dsimp only at hok
      exact legacyBasicStep_hasBal rb r' cfg m hok
        (legacyWsStep_hasBal ra rb cfg m hw (legacyDasStep_hasBal r ra cfg m hd h))

/-- Any router produced by NewMethodBasedRouter binds every
explicitly-listed method to a methodMap entry carrying its own balancer,
and GetBalancerForMethod returns that balancer without consulting the
defaultTargetInfo fallback. -/
theorem routerConstruction_hasBalancer (cfg : SolanaConfig)
    (r : MethodBasedRouter) (m : String)
    (hok : NewMethodBasedRouter cfg = .ok r)
    (hlist : methodListedInConfig cfg m = true) :
    ∃ info b, lookupInfo r.methodMap m = some info ∧ info.balancer = some b ∧
      GetBalancerForMethod r m = some b := by
  unfold methodListedInConfig at hlist
  rw [List.any_eq_true] at hlist
  obtain ⟨p0, hp0, hpe⟩ := hlist
  rw [List.any_eq_true] at hpe
  obtain ⟨e0, he0, hee⟩ := hpe
  rw [Bool.and_eq_true] at hee
  obtain ⟨hmem, hexb⟩ := hee
  have hex : e0.excludeMethods.contains m = false := by
    cases hc : e0.excludeMethods.contains m
    · rfl
    · rw [hc] at hexb
      cases hexb
  unfold NewMethodBasedRouter at hok
  dsimp only at hok
  cases hpp : processProviders cfg.methodGroups
      { methodMap := [], defaultTargetInfo := none, wsTargetInfo := none
        supportedMethods := [] } cfg.providers with
  | error e =>
    rw [hpp] at hok
    cases hok
  | ok r1 =>
    rw [hpp] at hok
    dsimp only at hok
    have hkey := providersFold_establishes cfg.methodGroups cfg.providers
      { methodMap := [], defaultTargetInfo := none, wsTargetInfo := none
        supportedMethods := [] } m p0 e0 hp0 he0 hmem hex
    have hb1 : KeyHasBalancer r1 m :=
      processProviders_hasBal cfg.methodGroups _ r1 cfg.providers m hpp hkey
    have hb2 : KeyHasBalancer r m :=
      processLegacyConfig_hasBal r1 r cfg m hok hb1
    obtain ⟨info, b, hl, hbal⟩ := hb2
    exact ⟨info, b, hl, hbal, by simp [GetBalancerForMethod, hl, hbal]⟩

/-! ## Claim C1: the A/B scenario -/

def srvA : TargetRef := { url := "https://a", provider := "provA" }

def srvB : TargetRef := { url := "https://b", provider := "provB" }

/-- Endpoint A: explicitly lists getAccountInfo. -/
def endpointA : EndpointConfig :=
  { url := "https://a", weight := 1, methods := ["getAccountInfo"]
    methodGroups := [], excludeMethods := [], handleOther := false
    handleWebSocket := false }

/-- Endpoint B: lists no methods, marked handleOther. -/
def endpointB : EndpointConfig :=
  { url := "https://b", weight := 1, methods := [], methodGroups := []
    excludeMethods := [], handleOther := true, handleWebSocket := false }

def cfgAB : SolanaConfig :=
  { dasAPINodes := [], basicRouteNodes := [], wsHostNodes := []
    methodGroups := []
    providers := [{ name := "provA", endpoints := [endpointA] },
                  { name := "provB", endpoints := [endpointB] }] }

def aBalancer : ProbabilisticBalancer TargetRef :=
  { targets := [srvA], weights := [1], cumulativeWeights := [1] }

def bBalancer : ProbabilisticBalancer TargetRef :=
  { targets := [srvB], weights := [1], cumulativeWeights := [1] }

/-- Router produced by NewMethodBasedRouter on cfgAB. -/
def routerAB : MethodBasedRouter :=
  { methodMap :=
      [("getAccountInfo",
        { targets := [srvA], weights := [1], balancer := some aBalancer })]
    defaultTargetInfo :=
      some { targets := [srvB], weights := [1], balancer := some bBalancer }
    wsTargetInfo := none
    supportedMethods := ["getAccountInfo"] }

/-- Health state of the A target after one failure at time 100: jailed until
time 101. -/
def jailedA : ProxyTargetState :=
  UpdateStats (baseTargetState "https://a" "provA") false ["getAccountInfo"]
    5 0 none 100

/-- Environment in which every upstream dial is refused. -/
def refuseEnv : DispatchEnv :=
  quietEnv (fun _ => .empty) (fun _ => 0)
    (fun _ => some { msg := "dial tcp 1.2.3.4: connection refused", isBadStatusCode := false, isCtxDeadlineExceeded := false, isCtxCanceled := false })

/-- C1 (amended): a method listed explicitly on any endpoint is always
routed through its own methodMap balancer, never the handle-other
defaultInfo one - in the A/B scenario B indeed receives no request - but
target selection never consults jail state: with every target of the
explicit entry jailed, the dispatcher still dials the jailed A, and when
all indices become excluded it ends with the balancer all-excluded error
and the latched status code 0, not with a 503 no-available-targets
response. -/
theorem C1_explicit_method_never_default :
    (∀ cfg r m, NewMethodBasedRouter cfg = .ok r →
      methodListedInConfig cfg m = true →
      ∃ info b, lookupInfo r.methodMap m = some info ∧ info.balancer = some b ∧
        GetBalancerForMethod r m = some b) ∧
    NewMethodBasedRouter cfgAB = .ok routerAB ∧
    (100 : Int) <
      (findRestriction jailedA.availableMethods "getAccountInfo").jailExpireTime ∧
    (executeWithRetries tcfg routerAB ["getAccountInfo"] refuseEnv ctx0
      [("https://a", jailedA)]).trace = ["https://a"] ∧
    "https://b" ∉ (executeWithRetries tcfg routerAB ["getAccountInfo"] refuseEnv
      ctx0 [("https://a", jailedA)]).trace ∧
    (executeWithRetries tcfg routerAB ["getAccountInfo"] refuseEnv ctx0
      [("https://a", jailedA)]).err = some (.balancer .allExcluded) ∧
    (executeWithRetries tcfg routerAB ["getAccountInfo"] refuseEnv ctx0
      [("https://a", jailedA)]).statusCode = 0 := by
  refine ⟨routerConstruction_hasBalancer, ?_, by decide, by decide, by decide,
    by decide, by decide⟩
  norm_num [NewMethodBasedRouter, processProviders, processEndpoint,
    processEndpointAddMethod, processLegacyConfig, legacyDasStep, legacyWsStep,
    legacyBasicStep, buildOptInfoBalancer, buildMethodMapBalancers,
    buildInfoBalancer, NewProbabilisticBalancer, cumulativeOf, appendTarget,
    expandedMethodsOf, endpointWeight, MethodTargetInfo.empty, setInfo,
    lookupInfo, cfgAB, endpointA, endpointB, routerAB, aBalancer, bBalancer,
    srvA, srvB, DefaultEndpointWeight]

/-- C1 witness: the general conjunct applied to cfgAB at getAccountInfo. -/
theorem C1_explicit_method_never_default_witness :
    methodListedInConfig cfgAB "getAccountInfo" = true ∧
    (∃ info b, lookupInfo routerAB.methodMap "getAccountInfo" = some info ∧
      info.balancer = some b ∧
      GetBalancerForMethod routerAB "getAccountInfo" = some b) :=
  ⟨by decide,
   C1_explicit_method_never_default.1 cfgAB routerAB "getAccountInfo"
     C1_explicit_method_never_default.2.1 (by decide)⟩

/-- C1 counterexample: with every target of the explicit endpoint jailed
(jail expires at 101, the dispatch clock is 100), the dispatcher still sends
the request to the jailed target and does not answer 503 with the
no-available-targets body. -/
theorem C1_counterexample :
    (100 : Int) <
      (findRestriction jailedA.availableMethods "getAccountInfo").jailExpireTime ∧
    (executeWithRetries tcfg routerAB ["getAccountInfo"] refuseEnv ctx0
      [("https://a", jailedA)]).trace ≠ [] ∧
    ¬ ((executeWithRetries tcfg routerAB ["getAccountInfo"] refuseEnv ctx0
      [("https://a", jailedA)]).statusCode = 503) ∧
    ¬ ((executeWithRetries tcfg routerAB ["getAccountInfo"] refuseEnv ctx0
      [("https://a", jailedA)]).ctx.rpcErrors = [ExtraNodeNoAvailableTargetsCode]) := by
  refine ⟨by decide, by decide, by decide, by decide⟩

end AuraProxy
